import Mathlib

/-!
# Verification of the heximeter hex-grid rotation core

Shallow embedding of `src/main.cpp` (hex coordinate algebra, the `Cell` /
`HexMap` rotation state machine, the `Cursor`, `generateHexMap`, and the
`rotatePoint` arc interpolator), together with proofs of the spec's testable
properties.

Modelling conventions:
* C++ `float` quantities (`rotationProgress`, `dt`) are modelled as exact
  rationals `ℚ`; the 2D geometry of `rotatePoint` is modelled over `ℝ`.
* `std::unordered_map<Hex, Cell>` is modelled as an association list keyed by
  the map's own key-equality `operator==` (which compares only `q` and `r`).
  Iteration order of the unordered map is irrelevant to every property here.
* C++ operations that would throw (`cells.at` on a missing key) or hit
  undefined behaviour (`*rotatingTo` on an empty optional) are modelled as
  `Option`-valued, returning `none` on those paths.  The commit path of
  `HexMap::stepRotation` manipulates the three selected cells through
  references into the map; the model is faithful for rotation descriptors
  with pairwise-distinct coordinates, which is the only shape the program
  ever creates (the three cursor cells are always distinct).
-/

namespace Heximeter

/-- `class Hex`: cube coordinate.  The C++ constructor asserts
`q + r + s == 0`; the model carries that constraint as a hypothesis where a
claim needs it. -/
structure Hex where
  q : Int
  r : Int
  s : Int
deriving DecidableEq, Repr

/-- `Hex::operator==`: compares only `q` and `r` (`s` is derivable). -/
def hexEq (a b : Hex) : Bool :=
  a.q == b.q && a.r == b.r

/-- `hexAdd`. -/
def hexAdd (a b : Hex) : Hex :=
  ⟨a.q + b.q, a.r + b.r, a.s + b.s⟩

/-- `hexSubtract`. -/
def hexSubtract (a b : Hex) : Hex :=
  ⟨a.q - b.q, a.r - b.r, a.s - b.s⟩

/-- `hexMultiply`. -/
def hexMultiply (a : Hex) (scalar : Int) : Hex :=
  ⟨a.q * scalar, a.r * scalar, a.s * scalar⟩

/-- `hexLength`. -/
def hexLength (h : Hex) : Int :=
  (h.q.natAbs + h.r.natAbs + h.s.natAbs : Int) / 2

/-- `hexDistance`. -/
def hexDistance (a b : Hex) : Int :=
  hexLength (hexSubtract a b)

/-- `enum class HexDirection`. -/
inductive HexDirection where
  | East
  | SouthEast
  | SouthWest
  | West
  | NorthWest
  | NorthEast
deriving DecidableEq, Repr

/-- `hex_directions` / `hexDirection`: the six unit vectors, in the order of
the C++ `hex_directions` array. -/
def hexDirection : HexDirection → Hex
  | .East => ⟨1, 0, -1⟩
  | .SouthEast => ⟨1, -1, 0⟩
  | .SouthWest => ⟨0, -1, 1⟩
  | .West => ⟨-1, 0, 1⟩
  | .NorthWest => ⟨-1, 1, 0⟩
  | .NorthEast => ⟨0, 1, -1⟩

/-- `hexNeighbour`. -/
def hexNeighbour (h : Hex) (d : HexDirection) : Hex :=
  hexAdd h (hexDirection d)

/-- `class Cell`.  `color` is an abstract tag (the C++ `Color` payload);
`rotationProgress` models the C++ `float`.  The C++ default constructor picks
a random color and leaves `rotationProgress` uninitialized; the model takes
the color as a parameter wherever cells are created. -/
structure Cell where
  rotatingTo : Option Hex
  rotationProgress : ℚ
  color : Nat
deriving DecidableEq, Repr

/-- `Cell::startRotation`. -/
def Cell.startRotation (c : Cell) (h : Hex) : Cell :=
  { c with rotatingTo := some h, rotationProgress := 0 }

/-- `Cell::stepRotation`: advance by `dt * 4.0`, clamped to at most `1.0`. -/
def Cell.stepRotation (c : Cell) (dt : ℚ) : Cell :=
  if c.rotatingTo.isSome then
    { c with rotationProgress :=
        if c.rotationProgress + dt * 4 > 1 then 1
        else c.rotationProgress + dt * 4 }
  else c

/-- `Cell::rotationDone`. -/
def Cell.rotationDone (c : Cell) : Bool :=
  c.rotatingTo.isNone || decide (1 ≤ c.rotationProgress)

/-- `Cell::resetRotation`. -/
def Cell.resetRotation (c : Cell) : Cell :=
  { c with rotationProgress := -1, rotatingTo := none }

/-- Shorthand for the progress value produced by one `Cell::stepRotation`
call on an animating cell: `p + dt*4`, clamped to `1`. -/
def clampStep (p dt : ℚ) : ℚ :=
  if p + dt * 4 > 1 then 1 else p + dt * 4

/-- `class HexMap`: the sparse grid plus the (at most one) active rotation
descriptor. -/
structure HexMap where
  cells : List (Hex × Cell)
  rotation : Option (Hex × Hex × Hex)
deriving DecidableEq, Repr

/-- Lookup (`cells.at` when the key is present): first entry whose key is
`operator==`-equal to `h`. -/
def HexMap.getCell (g : HexMap) (h : Hex) : Option Cell :=
  (g.cells.find? fun p => hexEq p.1 h).map Prod.snd

/-- Overwrite the cell stored under key `h` (in-place mutation through a
reference in the C++ code). -/
def HexMap.updateCell (g : HexMap) (h : Hex) (f : Cell → Cell) : HexMap :=
  { g with cells := g.cells.map fun p => if hexEq p.1 h then (p.1, f p.2) else p }

/-- Store `c` under key `h` (mutation through a reference). -/
def HexMap.setCell (g : HexMap) (h : Hex) (c : Cell) : HexMap :=
  g.updateCell h fun _ => c

/-- Key-membership test. -/
def HexMap.containsHex (g : HexMap) (h : Hex) : Bool :=
  g.cells.any fun p => hexEq p.1 h

/-- `HexMap::insert` (`cells.emplace`): inserts only when the key is absent. -/
def HexMap.insert (g : HexMap) (h : Hex) (c : Cell) : HexMap :=
  if g.containsHex h then g else { g with cells := g.cells ++ [(h, c)] }

/-- `std::swap(cells.at a, cells.at b)`: exchange the cells stored at two
keys.  `none` when a key is absent (the C++ `operator[]` would instead
default-insert a fresh random cell there; that path is never taken by the
program, whose rotation targets always exist). -/
def HexMap.swapCells (g : HexMap) (a b : Hex) : Option HexMap :=
  (g.getCell a).bind fun ca =>
  (g.getCell b).bind fun cb =>
  some ((g.setCell a cb).setCell b ca)

/-- `HexMap::startRotation`: record the descriptor and make each selected
cell head for its predecessor slot (`cell1 → rot0`, `cell2 → rot1`,
`cell0 → rot2`), in the C++ mutation order.  `none` models the `cells.at`
throw when a coordinate is absent. -/
def HexMap.startRotation (g : HexMap) (h0 h1 h2 : Hex) : Option HexMap :=
  if g.containsHex h0 && g.containsHex h1 && g.containsHex h2 then
    some { (((g.updateCell h1 (Cell.startRotation · h0)).updateCell
              h2 (Cell.startRotation · h1)).updateCell
              h0 (Cell.startRotation · h2)) with
           rotation := some (h0, h1, h2) }
  else none

/-- The commit phase of `HexMap::stepRotation`, started once all three cells
are done.  `c0` is the already-stepped cell sitting at `r0` (the C++
reference `cell0`); `cell1` and `cell2` are re-read from the map after the
earlier swaps, exactly as the C++ references observe cells that earlier
swaps moved under them. -/
def HexMap.commitRotation (g1 : HexMap) (r0 r1 r2 : Hex) (c0 : Cell) : Option HexMap :=
  c0.rotatingTo.bind fun t0 =>
  (g1.swapCells r0 t0).bind fun g2 =>
  (g2.getCell r1).bind fun b1 =>
  b1.rotatingTo.bind fun t1 =>
  (g2.swapCells r1 t1).bind fun g3 =>
  (g3.getCell r2).bind fun b2 =>
  b2.rotatingTo.bind fun t2 =>
  (g3.swapCells r2 t2).bind fun g4 =>
  some { (((g4.updateCell r0 Cell.resetRotation).updateCell
            r1 Cell.resetRotation).updateCell
            r2 Cell.resetRotation) with
         rotation := none }

/-- Body of `HexMap::stepRotation` in the `Rotating` case, for descriptor
`(r0, r1, r2)`: step the three cells through their references, then commit
when all are done. -/
def HexMap.stepRotationAux (g : HexMap) (dt : ℚ) (r0 r1 r2 : Hex) : Option HexMap :=
  (g.getCell r0).bind fun a0 =>
  (g.getCell r1).bind fun a1 =>
  (g.getCell r2).bind fun a2 =>
  let c0 := a0.stepRotation dt
  let c1 := a1.stepRotation dt
  let c2 := a2.stepRotation dt
  let g1 := ((g.setCell r0 c0).setCell r1 c1).setCell r2 c2
  if c0.rotationDone && c1.rotationDone && c2.rotationDone then
    g1.commitRotation r0 r1 r2 c0
  else
    some g1

/-- `HexMap::stepRotation`: no-op when idle. -/
def HexMap.stepRotation (g : HexMap) (dt : ℚ) : Option HexMap :=
  match g.rotation with
  | none => some g
  | some (r0, r1, r2) => g.stepRotationAux dt r0 r1 r2

/-- Iterated `stepRotation` over a list of frame delta-times. -/
def HexMap.stepRotationMany (g : HexMap) : List ℚ → Option HexMap
  | [] => some g
  | d :: ds => (g.stepRotation d).bind fun g' => g'.stepRotationMany ds

/-- `class Cursor`: the three coordinates `hexes[0..2]`. -/
structure Cursor where
  hex0 : Hex
  hex1 : Hex
  hex2 : Hex
deriving DecidableEq, Repr

/-- The `Cursor(topHex)` constructor. -/
def Cursor.ofTop (top : Hex) : Cursor :=
  ⟨top, hexNeighbour top .NorthWest, hexNeighbour top .NorthEast⟩

/-- `Cursor::move`. -/
def Cursor.move (c : Cursor) (d : HexDirection) : Cursor :=
  ⟨hexNeighbour c.hex0 d, hexNeighbour c.hex1 d, hexNeighbour c.hex2 d⟩

/-- `Cursor::moveUp`: `hexes[0].r % 2 == 0` (C++ truncated `%`) selects
SouthEast, else SouthWest. -/
def Cursor.moveUp (c : Cursor) : Cursor :=
  if c.hex0.r.tmod 2 == 0 then c.move .SouthEast else c.move .SouthWest

/-- `Cursor::moveDown`. -/
def Cursor.moveDown (c : Cursor) : Cursor :=
  if c.hex0.r.tmod 2 == 0 then c.move .NorthEast else c.move .NorthWest

/-- `Cursor::moveLeft`. -/
def Cursor.moveLeft (c : Cursor) : Cursor :=
  c.move .West

/-- `Cursor::moveRight`. -/
def Cursor.moveRight (c : Cursor) : Cursor :=
  c.move .East

/-- The inclusive integer range `lo..hi` of a C++ `for` loop. -/
def intRange (lo hi : Int) : List Int :=
  (List.range (hi + 1 - lo).toNat).map fun i : Nat => lo + (i : Int)

/-- The coordinates visited by the nested loops of `generateHexMap`, in
order. -/
def hexMapKeyList (size : Int) : List Hex :=
  (intRange (-size) size).flatMap fun q =>
    (intRange (max (-size) (-q - size)) (min size (-q + size))).map fun r =>
      ⟨q, r, -q - r⟩

/-- `generateHexMap`.  `colorOf` models the stream of `GetRandomValue` colors
picked by the `Cell()` constructor (one per visited coordinate). -/
def generateHexMap (size : Int) (colorOf : Int → Int → Nat) : HexMap :=
  (hexMapKeyList size).foldl
    (fun m h => m.insert h ⟨none, 0, colorOf h.q h.r⟩)
    ⟨[], none⟩

/-- The grid-wide rotation invariant: when idle, no cell is rotating; when a
descriptor `(h0,h1,h2)` is active, the three coordinates are pairwise
distinct, all three are present with exactly the `rotatingTo` targets
`startRotation` assigns, and no other cell is rotating. -/
def RotationInvariant (g : HexMap) : Prop :=
  (g.rotation = none → ∀ p ∈ g.cells, p.2.rotatingTo = none) ∧
  (∀ h0 h1 h2, g.rotation = some (h0, h1, h2) →
    hexEq h0 h1 = false ∧ hexEq h0 h2 = false ∧ hexEq h1 h2 = false ∧
    (∃ c0, g.getCell h0 = some c0 ∧ c0.rotatingTo = some h2) ∧
    (∃ c1, g.getCell h1 = some c1 ∧ c1.rotatingTo = some h0) ∧
    (∃ c2, g.getCell h2 = some c2 ∧ c2.rotatingTo = some h1) ∧
    (∀ p ∈ g.cells, hexEq p.1 h0 = false → hexEq p.1 h1 = false →
      hexEq p.1 h2 = false → p.2.rotatingTo = none))

/-- `Vector2`, modelled over `ℝ`. -/
structure Vec2 where
  x : ℝ
  y : ℝ

/-- `Vector2Subtract`. -/
def vec2Sub (a b : Vec2) : Vec2 :=
  ⟨a.x - b.x, a.y - b.y⟩

/-- `Vector2Length`: `sqrt (x*x + y*y)`. -/
noncomputable def vec2Length (v : Vec2) : ℝ :=
  Real.sqrt (v.x * v.x + v.y * v.y)

/-- `atan2f`, modelled as the argument of the complex number `x + y*i`. -/
noncomputable def atan2 (y x : ℝ) : ℝ :=
  Complex.arg ⟨x, y⟩

/-- `rotatePoint`: interpolate the angle from `start` to `stop` around
`pivot` along the shorter signed arc, and reconstruct a point at the start's
radius. -/
noncomputable def rotatePoint (start stop pivot : Vec2) (progress : ℝ) : Vec2 :=
  let startRelative := vec2Sub start pivot
  let endRelative := vec2Sub stop pivot
  let startAngle := atan2 startRelative.y startRelative.x
  let endAngle := atan2 endRelative.y endRelative.x
  let angleDiff0 := endAngle - startAngle
  let angleDiff :=
    if angleDiff0 > Real.pi then angleDiff0 - 2 * Real.pi
    else if angleDiff0 < -Real.pi then angleDiff0 + 2 * Real.pi
    else angleDiff0
  let currentAngle := startAngle + angleDiff * progress
  let radius := vec2Length startRelative
  ⟨pivot.x + Real.cos currentAngle * radius, pivot.y + Real.sin currentAngle * radius⟩

/-- Grid states reachable from a freshly generated grid by `insert` (of
fresh, non-rotating cells, as the program creates them), `startRotation`
under its preconditions (grid idle, all three coordinates present and
pairwise distinct, as the cursor guarantees), and `stepRotation` with a
nonnegative frame delta-time. -/
inductive Reach : HexMap → Prop where
  | generated (size : Int) (colorOf : Int → Int → Nat) :
      Reach (generateHexMap size colorOf)
  | insert (g : HexMap) (h : Hex) (prog : ℚ) (col : Nat) :
      Reach g → Reach (g.insert h ⟨none, prog, col⟩)
  | start (g g' : HexMap) (h0 h1 h2 : Hex) :
      Reach g → g.rotation = none →
      hexEq h0 h1 = false → hexEq h0 h2 = false → hexEq h1 h2 = false →
      (g.getCell h0).isSome → (g.getCell h1).isSome → (g.getCell h2).isSome →
      g.startRotation h0 h1 h2 = some g' → Reach g'
  | step (g g' : HexMap) (dt : ℚ) :
      Reach g → 0 ≤ dt → g.stepRotation dt = some g' → Reach g'

/-! ## Basic lemmas: key equality and the association-list map -/

theorem hexEq_true_iff {a b : Hex} : hexEq a b = true ↔ a.q = b.q ∧ a.r = b.r := by
  simp [hexEq]

theorem hexEq_false_iff {a b : Hex} : hexEq a b = false ↔ ¬(a.q = b.q ∧ a.r = b.r) := by
  rw [← Bool.not_eq_true, hexEq_true_iff]

theorem hexEq_refl (a : Hex) : hexEq a a = true := by
  simp [hexEq]

theorem hexEq_false_symm {a b : Hex} (h : hexEq a b = false) : hexEq b a = false := by
  rw [hexEq_false_iff] at h ⊢
  intro hc
  exact h ⟨hc.1.symm, hc.2.symm⟩

theorem hexEq_true_symm {a b : Hex} (h : hexEq a b = true) : hexEq b a = true := by
  rw [hexEq_true_iff] at h ⊢
  exact ⟨h.1.symm, h.2.symm⟩

theorem hexEq_true_false {a b c : Hex} (h1 : hexEq a b = true) (h2 : hexEq a c = false) :
    hexEq b c = false := by
  rw [hexEq_true_iff] at h1
  rw [hexEq_false_iff] at h2 ⊢
  intro hc
  exact h2 ⟨h1.1.trans hc.1, h1.2.trans hc.2⟩

theorem find?_map_update_self (l : List (Hex × Cell)) (h : Hex) (f : Cell → Cell) :
    ((l.map fun p => if hexEq p.1 h then (p.1, f p.2) else p).find? fun p => hexEq p.1 h) =
      (l.find? fun p => hexEq p.1 h).map fun p => (p.1, f p.2) := by
  induction l with
  | nil => rfl
  | cons a l ih =>
    by_cases ha : hexEq a.1 h = true
    · simp [List.find?_cons, ha]
    · rw [Bool.not_eq_true] at ha
      simp [List.find?_cons, ha, ih]

theorem find?_map_update_ne (l : List (Hex × Cell)) (h h' : Hex) (f : Cell → Cell)
    (hne : hexEq h h' = false) :
    ((l.map fun p => if hexEq p.1 h then (p.1, f p.2) else p).find? fun p => hexEq p.1 h') =
      l.find? fun p => hexEq p.1 h' := by
  induction l with
  | nil => rfl
  | cons a l ih =>
    by_cases ha : hexEq a.1 h = true
    · have ha' : hexEq a.1 h' = false := hexEq_true_false (hexEq_true_symm ha) hne
      simp [List.find?_cons, ha, ha', ih]
    · rw [Bool.not_eq_true] at ha
      by_cases ha' : hexEq a.1 h' = true
      · simp [List.find?_cons, ha, ha']
      · rw [Bool.not_eq_true] at ha'
        simp [List.find?_cons, ha, ha', ih]

theorem getCell_updateCell_self (g : HexMap) (h : Hex) (f : Cell → Cell) :
    (g.updateCell h f).getCell h = (g.getCell h).map f := by
  simp only [HexMap.getCell, HexMap.updateCell, find?_map_update_self, Option.map_map]
  rfl

theorem getCell_updateCell_ne (g : HexMap) {h h' : Hex} (f : Cell → Cell)
    (hne : hexEq h h' = false) :
    (g.updateCell h f).getCell h' = g.getCell h' := by
  simp only [HexMap.getCell, HexMap.updateCell, find?_map_update_ne _ _ _ _ hne]

theorem updateCell_rotation (g : HexMap) (h : Hex) (f : Cell → Cell) :
    (g.updateCell h f).rotation = g.rotation := rfl

theorem updateCell_keys (g : HexMap) (h : Hex) (f : Cell → Cell) :
    (g.updateCell h f).cells.map Prod.fst = g.cells.map Prod.fst := by
  simp only [HexMap.updateCell, List.map_map]
  apply List.map_congr_left
  intro a _
  by_cases ha : hexEq a.1 h = true
  · simp [ha]
  · rw [Bool.not_eq_true] at ha
    simp [ha]

theorem mem_updateCell {g : HexMap} {h : Hex} {f : Cell → Cell} {p : Hex × Cell}
    (hp : p ∈ (g.updateCell h f).cells) :
    ∃ p₀ ∈ g.cells, p = if hexEq p₀.1 h then (p₀.1, f p₀.2) else p₀ := by
  simp only [HexMap.updateCell, List.mem_map] at hp
  obtain ⟨p₀, hp₀, hep⟩ := hp
  exact ⟨p₀, hp₀, hep.symm⟩

theorem containsHex_eq_isSome (g : HexMap) (h : Hex) :
    g.containsHex h = (g.getCell h).isSome := by
  obtain ⟨cs, rot⟩ := g
  simp only [HexMap.containsHex, HexMap.getCell]
  induction cs with
  | nil => rfl
  | cons a l ih =>
    by_cases ha : hexEq a.1 h = true
    · simp [List.any_cons, List.find?_cons, ha]
    · rw [Bool.not_eq_true] at ha
      simp only [List.any_cons, List.find?_cons, ha] at ih ⊢
      simpa using ih

theorem insert_rotation (g : HexMap) (h : Hex) (c : Cell) :
    (g.insert h c).rotation = g.rotation := by
  unfold HexMap.insert
  split <;> rfl

theorem getCell_insert_of_isSome (g : HexMap) (h x : Hex) (c : Cell)
    (hx : (g.getCell x).isSome) :
    (g.insert h c).getCell x = g.getCell x := by
  unfold HexMap.insert
  split
  · rfl
  · simp only [HexMap.getCell, List.find?_append]
    rw [Option.isSome_iff_exists] at hx
    obtain ⟨cx, hcx⟩ := hx
    simp only [HexMap.getCell] at hcx
    rw [Option.map_eq_some'] at hcx
    obtain ⟨p, hp, _⟩ := hcx
    rw [hp]
    rfl

theorem mem_insert {g : HexMap} {h : Hex} {c : Cell} {p : Hex × Cell}
    (hp : p ∈ (g.insert h c).cells) :
    p ∈ g.cells ∨ p = (h, c) := by
  unfold HexMap.insert at hp
  split at hp
  · exact Or.inl hp
  · simp only [List.mem_append, List.mem_singleton] at hp
    exact hp

theorem mem_updateCell_elim {g : HexMap} {h : Hex} {f : Cell → Cell} {p : Hex × Cell}
    (hp : p ∈ (g.updateCell h f).cells) :
    (hexEq p.1 h = true ∧ ∃ c₀, (p.1, c₀) ∈ g.cells ∧ p.2 = f c₀) ∨
      (hexEq p.1 h = false ∧ p ∈ g.cells) := by
  obtain ⟨p₀, h₀, he⟩ := mem_updateCell hp
  by_cases hk : hexEq p₀.1 h = true
  · rw [if_pos hk] at he
    subst he
    exact Or.inl ⟨hk, p₀.2, h₀, rfl⟩
  · rw [Bool.not_eq_true] at hk
    rw [if_neg (by simp [hk])] at he
    subst he
    exact Or.inr ⟨hk, h₀⟩

theorem Cell.startRotation_eq (c : Cell) (h : Hex) :
    c.startRotation h = ⟨some h, 0, c.color⟩ := rfl

theorem Cell.resetRotation_eq (c : Cell) :
    c.resetRotation = ⟨none, -1, c.color⟩ := rfl

theorem Cell.stepRotation_of_some {c : Cell} {h : Hex} (ht : c.rotatingTo = some h) (dt : ℚ) :
    c.stepRotation dt = ⟨some h, clampStep c.rotationProgress dt, c.color⟩ := by
  obtain ⟨t, p, col⟩ := c
  simp only at ht
  subst ht
  simp [Cell.stepRotation, clampStep]

theorem stepRotation_idle {g : HexMap} (dt : ℚ) (hrot : g.rotation = none) :
    g.stepRotation dt = some g := by
  unfold HexMap.stepRotation
  rw [hrot]

theorem stepRotation_rotating {g : HexMap} (dt : ℚ) {r0 r1 r2 : Hex}
    (hrot : g.rotation = some (r0, r1, r2)) :
    g.stepRotation dt = g.stepRotationAux dt r0 r1 r2 := by
  unfold HexMap.stepRotation
  rw [hrot]

theorem stepRotationMany_idle {g : HexMap} (ds : List ℚ) (hrot : g.rotation = none) :
    g.stepRotationMany ds = some g := by
  induction ds with
  | nil => rfl
  | cons d ds ih =>
    simp only [HexMap.stepRotationMany, stepRotation_idle d hrot, Option.some_bind]
    exact ih

/-- Characterization of `HexMap::startRotation` on three distinct, present
coordinates: descriptor recorded, the three cells re-targeted with progress
reset to `0`, everything else untouched. -/
theorem startRotation_aux
    (g : HexMap) (h0 h1 h2 : Hex) (c0 c1 c2 : Cell)
    (h01 : hexEq h0 h1 = false) (h02 : hexEq h0 h2 = false) (h12 : hexEq h1 h2 = false)
    (hc0 : g.getCell h0 = some c0) (hc1 : g.getCell h1 = some c1)
    (hc2 : g.getCell h2 = some c2) :
    ∃ g', g.startRotation h0 h1 h2 = some g' ∧
      g'.rotation = some (h0, h1, h2) ∧
      g'.getCell h0 = some ⟨some h2, 0, c0.color⟩ ∧
      g'.getCell h1 = some ⟨some h0, 0, c1.color⟩ ∧
      g'.getCell h2 = some ⟨some h1, 0, c2.color⟩ ∧
      (∀ x, hexEq h0 x = false → hexEq h1 x = false → hexEq h2 x = false →
        g'.getCell x = g.getCell x) ∧
      g'.cells.map Prod.fst = g.cells.map Prod.fst ∧
      (∀ p ∈ g'.cells, hexEq p.1 h0 = false → hexEq p.1 h1 = false →
        hexEq p.1 h2 = false → p ∈ g.cells) := by
  have hcond : (g.containsHex h0 && g.containsHex h1 && g.containsHex h2) = true := by
    rw [containsHex_eq_isSome, containsHex_eq_isSome, containsHex_eq_isSome,
      hc0, hc1, hc2]
    rfl
  refine ⟨_, by rw [HexMap.startRotation, if_pos hcond], ?_, ?_, ?_, ?_, ?_, ?_, ?_⟩
  · rfl
  · show ((((g.updateCell h1 (Cell.startRotation · h0)).updateCell
        h2 (Cell.startRotation · h1)).updateCell
        h0 (Cell.startRotation · h2))).getCell h0 = _
    rw [getCell_updateCell_self, getCell_updateCell_ne _ _ (hexEq_false_symm h02),
      getCell_updateCell_ne _ _ (hexEq_false_symm h01), hc0]
    rfl
  · show ((((g.updateCell h1 (Cell.startRotation · h0)).updateCell
        h2 (Cell.startRotation · h1)).updateCell
        h0 (Cell.startRotation · h2))).getCell h1 = _
    rw [getCell_updateCell_ne _ _ h01, getCell_updateCell_ne _ _ (hexEq_false_symm h12),
      getCell_updateCell_self, hc1]
    rfl
  · show ((((g.updateCell h1 (Cell.startRotation · h0)).updateCell
        h2 (Cell.startRotation · h1)).updateCell
        h0 (Cell.startRotation · h2))).getCell h2 = _
    rw [getCell_updateCell_ne _ _ h02, getCell_updateCell_self,
      getCell_updateCell_ne _ _ h12, hc2]
    rfl
  · intro x hx0 hx1 hx2
    show ((((g.updateCell h1 (Cell.startRotation · h0)).updateCell
        h2 (Cell.startRotation · h1)).updateCell
        h0 (Cell.startRotation · h2))).getCell x = _
    rw [getCell_updateCell_ne _ _ hx0, getCell_updateCell_ne _ _ hx2,
      getCell_updateCell_ne _ _ hx1]
  · show ((((g.updateCell h1 (Cell.startRotation · h0)).updateCell
        h2 (Cell.startRotation · h1)).updateCell
        h0 (Cell.startRotation · h2))).cells.map Prod.fst = _
    rw [updateCell_keys, updateCell_keys, updateCell_keys]
  · intro p hp hp0 hp1 hp2
    have hp' : p ∈ ((((g.updateCell h1 (Cell.startRotation · h0)).updateCell
        h2 (Cell.startRotation · h1)).updateCell
        h0 (Cell.startRotation · h2))).cells := hp
    rcases mem_updateCell_elim hp' with ⟨hk, _⟩ | ⟨_, hp''⟩
    · rw [hk] at hp0; cases hp0
    · rcases mem_updateCell_elim hp'' with ⟨hk, _⟩ | ⟨_, hp'''⟩
      · rw [hk] at hp2; cases hp2
      · rcases mem_updateCell_elim hp''' with ⟨hk, _⟩ | ⟨_, hres⟩
        · rw [hk] at hp1; cases hp1
        · exact hres

theorem mem_updateCell_of_ne {g : HexMap} {h : Hex} {f : Cell → Cell} {p : Hex × Cell}
    (hp : p ∈ (g.updateCell h f).cells) (hne : hexEq p.1 h = false) : p ∈ g.cells := by
  rcases mem_updateCell_elim hp with ⟨hk, _⟩ | ⟨_, h'⟩
  · rw [hk] at hne; cases hne
  · exact h'

theorem getCell_setCell_self {g : HexMap} {h : Hex} (c : Cell)
    (hx : (g.getCell h).isSome) : (g.setCell h c).getCell h = some c := by
  rw [HexMap.setCell, getCell_updateCell_self]
  rw [Option.isSome_iff_exists] at hx
  obtain ⟨y, hy⟩ := hx
  rw [hy]
  rfl

theorem getCell_setCell_ne {g : HexMap} {h h' : Hex} (c : Cell)
    (hne : hexEq h h' = false) : (g.setCell h c).getCell h' = g.getCell h' :=
  getCell_updateCell_ne g _ hne

theorem setCell_keys (g : HexMap) (h : Hex) (c : Cell) :
    (g.setCell h c).cells.map Prod.fst = g.cells.map Prod.fst :=
  updateCell_keys g h _

theorem setCell_rotation (g : HexMap) (h : Hex) (c : Cell) :
    (g.setCell h c).rotation = g.rotation := rfl

theorem swapCells_eq {g : HexMap} {a b : Hex} {ca cb : Cell}
    (ha : g.getCell a = some ca) (hb : g.getCell b = some cb) :
    g.swapCells a b = some ((g.setCell a cb).setCell b ca) := by
  simp [HexMap.swapCells, ha, hb]

/-- Characterization of the commit phase on a map whose three selected slots
hold done cells in the shape `startRotation` created (`cell(h1) → h0`,
`cell(h2) → h1`, `cell(h0) → h2`): the cell contents travel one step against
the descriptor order — slot `h0` receives `h1`'s cell, `h1` receives `h2`'s,
`h2` receives `h0`'s — all three slots are reset, the descriptor is cleared,
and nothing else changes. -/
theorem commitRotation_aux
    (G : HexMap) (h0 h1 h2 : Hex) (s0 s1 s2 : Cell)
    (h01 : hexEq h0 h1 = false) (h02 : hexEq h0 h2 = false) (h12 : hexEq h1 h2 = false)
    (hs0 : G.getCell h0 = some s0) (hs1 : G.getCell h1 = some s1)
    (hs2 : G.getCell h2 = some s2)
    (hts0 : s0.rotatingTo = some h2) (hts1 : s1.rotatingTo = some h0)
    (hts2 : s2.rotatingTo = some h1) :
    ∃ g', G.commitRotation h0 h1 h2 s0 = some g' ∧
      g'.rotation = none ∧
      g'.getCell h0 = some ⟨none, -1, s1.color⟩ ∧
      g'.getCell h1 = some ⟨none, -1, s2.color⟩ ∧
      g'.getCell h2 = some ⟨none, -1, s0.color⟩ ∧
      (∀ x, hexEq h0 x = false → hexEq h1 x = false → hexEq h2 x = false →
        g'.getCell x = G.getCell x) ∧
      g'.cells.map Prod.fst = G.cells.map Prod.fst ∧
      (∀ p ∈ g'.cells, p.2.rotatingTo = none ∨
        (p ∈ G.cells ∧ hexEq p.1 h0 = false ∧ hexEq p.1 h1 = false ∧
          hexEq p.1 h2 = false)) := by
  have h10 := hexEq_false_symm h01
  have h20 := hexEq_false_symm h02
  have h21 := hexEq_false_symm h12
  have hsw1 : G.swapCells h0 h2 = some ((G.setCell h0 s2).setCell h2 s0) :=
    swapCells_eq hs0 hs2
  have hg2_1 : ((G.setCell h0 s2).setCell h2 s0).getCell h1 = some s1 := by
    rw [getCell_setCell_ne _ h21, getCell_setCell_ne _ h01, hs1]
  have hg2_0 : ((G.setCell h0 s2).setCell h2 s0).getCell h0 = some s2 := by
    rw [getCell_setCell_ne _ h20]
    exact getCell_setCell_self _ (by rw [hs0]; rfl)
  have hg2_2 : ((G.setCell h0 s2).setCell h2 s0).getCell h2 = some s0 := by
    apply getCell_setCell_self
    rw [getCell_setCell_ne _ h02, hs2]
    rfl
  have hsw2 : ((G.setCell h0 s2).setCell h2 s0).swapCells h1 h0 =
      some (((((G.setCell h0 s2).setCell h2 s0)).setCell h1 s2).setCell h0 s1) :=
    swapCells_eq hg2_1 hg2_0
  have hg3_2 : (((((G.setCell h0 s2).setCell h2 s0)).setCell h1 s2).setCell h0 s1).getCell h2 =
      some s0 := by
    rw [getCell_setCell_ne _ h02, getCell_setCell_ne _ h12, hg2_2]
  have hg3_0 : (((((G.setCell h0 s2).setCell h2 s0)).setCell h1 s2).setCell h0 s1).getCell h0 =
      some s1 := by
    apply getCell_setCell_self
    rw [getCell_setCell_ne _ h10, hg2_0]
    rfl
  have hg3_1 : (((((G.setCell h0 s2).setCell h2 s0)).setCell h1 s2).setCell h0 s1).getCell h1 =
      some s2 := by
    rw [getCell_setCell_ne _ h01]
    apply getCell_setCell_self
    rw [hg2_1]
    rfl
  have hsw3 : (((((G.setCell h0 s2).setCell h2 s0)).setCell h1 s2).setCell h0 s1).swapCells h2 h2 =
      some (((((((G.setCell h0 s2).setCell h2 s0)).setCell h1 s2).setCell h0 s1).setCell
        h2 s0).setCell h2 s0) :=
    swapCells_eq hg3_2 hg3_2
  have hg4_0 : (((((((G.setCell h0 s2).setCell h2 s0)).setCell h1 s2).setCell h0 s1).setCell
      h2 s0).setCell h2 s0).getCell h0 = some s1 := by
    rw [getCell_setCell_ne _ h20, getCell_setCell_ne _ h20, hg3_0]
  have hg4_1 : (((((((G.setCell h0 s2).setCell h2 s0)).setCell h1 s2).setCell h0 s1).setCell
      h2 s0).setCell h2 s0).getCell h1 = some s2 := by
    rw [getCell_setCell_ne _ h21, getCell_setCell_ne _ h21, hg3_1]
  have hg4_2 : (((((((G.setCell h0 s2).setCell h2 s0)).setCell h1 s2).setCell h0 s1).setCell
      h2 s0).setCell h2 s0).getCell h2 = some s0 := by
    apply getCell_setCell_self
    rw [getCell_setCell_self _ (by rw [hg3_2]; rfl)]
    rfl
  refine ⟨{ ((((((((((G.setCell h0 s2).setCell h2 s0)).setCell h1 s2).setCell h0 s1).setCell
      h2 s0).setCell h2 s0).updateCell h0 Cell.resetRotation).updateCell
      h1 Cell.resetRotation).updateCell h2 Cell.resetRotation) with rotation := none },
    ?_, rfl, ?_, ?_, ?_, ?_, ?_, ?_⟩
  · unfold HexMap.commitRotation
    rw [hts0]
    simp only [Option.some_bind]
    rw [hsw1]
    simp only [Option.some_bind]
    rw [hg2_1]
    simp only [Option.some_bind]
    rw [hts1]
    simp only [Option.some_bind]
    rw [hsw2]
    simp only [Option.some_bind]
    rw [hg3_2]
    simp only [Option.some_bind]
    rw [hts0]
    simp only [Option.some_bind]
    rw [hsw3]
    simp only [Option.some_bind]
  · show ((((((((((G.setCell h0 s2).setCell h2 s0)).setCell h1 s2).setCell h0 s1).setCell
      h2 s0).setCell h2 s0).updateCell h0 Cell.resetRotation).updateCell
      h1 Cell.resetRotation).updateCell h2 Cell.resetRotation).getCell h0 = _
    rw [getCell_updateCell_ne _ _ h20, getCell_updateCell_ne _ _ h10,
      getCell_updateCell_self, hg4_0]
    rfl
  · show ((((((((((G.setCell h0 s2).setCell h2 s0)).setCell h1 s2).setCell h0 s1).setCell
      h2 s0).setCell h2 s0).updateCell h0 Cell.resetRotation).updateCell
      h1 Cell.resetRotation).updateCell h2 Cell.resetRotation).getCell h1 = _
    rw [getCell_updateCell_ne _ _ h21, getCell_updateCell_self,
      getCell_updateCell_ne _ _ h01, hg4_1]
    rfl
  · show ((((((((((G.setCell h0 s2).setCell h2 s0)).setCell h1 s2).setCell h0 s1).setCell
      h2 s0).setCell h2 s0).updateCell h0 Cell.resetRotation).updateCell
      h1 Cell.resetRotation).updateCell h2 Cell.resetRotation).getCell h2 = _
    rw [getCell_updateCell_self, getCell_updateCell_ne _ _ h12,
      getCell_updateCell_ne _ _ h02, hg4_2]
    rfl
  · intro x hx0 hx1 hx2
    show ((((((((((G.setCell h0 s2).setCell h2 s0)).setCell h1 s2).setCell h0 s1).setCell
      h2 s0).setCell h2 s0).updateCell h0 Cell.resetRotation).updateCell
      h1 Cell.resetRotation).updateCell h2 Cell.resetRotation).getCell x = _
    rw [getCell_updateCell_ne _ _ hx2, getCell_updateCell_ne _ _ hx1,
      getCell_updateCell_ne _ _ hx0, getCell_setCell_ne _ hx2, getCell_setCell_ne _ hx2,
      getCell_setCell_ne _ hx0, getCell_setCell_ne _ hx1, getCell_setCell_ne _ hx2,
      getCell_setCell_ne _ hx0]
  · show ((((((((((G.setCell h0 s2).setCell h2 s0)).setCell h1 s2).setCell h0 s1).setCell
      h2 s0).setCell h2 s0).updateCell h0 Cell.resetRotation).updateCell
      h1 Cell.resetRotation).updateCell h2 Cell.resetRotation).cells.map Prod.fst = _
    rw [updateCell_keys, updateCell_keys, updateCell_keys, setCell_keys, setCell_keys,
      setCell_keys, setCell_keys, setCell_keys, setCell_keys]
  · intro p hp
    have hp' : p ∈ ((((((((((G.setCell h0 s2).setCell h2 s0)).setCell h1 s2).setCell
        h0 s1).setCell h2 s0).setCell h2 s0).updateCell h0 Cell.resetRotation).updateCell
        h1 Cell.resetRotation).updateCell h2 Cell.resetRotation).cells := hp
    rcases mem_updateCell_elim hp' with ⟨_, c₀, _, he⟩ | ⟨hne2, hpa⟩
    · exact Or.inl (by rw [he]; rfl)
    rcases mem_updateCell_elim hpa with ⟨_, c₀, _, he⟩ | ⟨hne1, hpb⟩
    · exact Or.inl (by rw [he]; rfl)
    rcases mem_updateCell_elim hpb with ⟨_, c₀, _, he⟩ | ⟨hne0, hpc⟩
    · exact Or.inl (by rw [he]; rfl)
    refine Or.inr ⟨?_, hne0, hne1, hne2⟩
    rw [HexMap.setCell] at hpc
    have hpd := mem_updateCell_of_ne hpc hne2
    rw [HexMap.setCell] at hpd
    have hpe := mem_updateCell_of_ne hpd hne2
    rw [HexMap.setCell] at hpe
    have hpf := mem_updateCell_of_ne hpe hne0
    rw [HexMap.setCell] at hpf
    have hpg := mem_updateCell_of_ne hpf hne1
    rw [HexMap.setCell] at hpg
    have hph := mem_updateCell_of_ne hpg hne2
    rw [HexMap.setCell] at hph
    exact mem_updateCell_of_ne hph hne0

/-- One `stepRotation` call on a well-formed rotating grid that does not yet
finish: the three cells' progress is clamped-advanced and nothing else
changes. -/
theorem stepRotation_advance_aux
    (g : HexMap) (dt : ℚ) (h0 h1 h2 : Hex) (c0 c1 c2 : Cell)
    (hrot : g.rotation = some (h0, h1, h2))
    (h01 : hexEq h0 h1 = false) (h02 : hexEq h0 h2 = false) (h12 : hexEq h1 h2 = false)
    (hc0 : g.getCell h0 = some c0) (hc1 : g.getCell h1 = some c1)
    (hc2 : g.getCell h2 = some c2)
    (ht0 : c0.rotatingTo = some h2) (ht1 : c1.rotatingTo = some h0)
    (ht2 : c2.rotatingTo = some h1)
    (hnc : ¬(1 ≤ clampStep c0.rotationProgress dt ∧ 1 ≤ clampStep c1.rotationProgress dt ∧
             1 ≤ clampStep c2.rotationProgress dt)) :
    ∃ g', g.stepRotation dt = some g' ∧
      g'.rotation = some (h0, h1, h2) ∧
      g'.getCell h0 = some ⟨some h2, clampStep c0.rotationProgress dt, c0.color⟩ ∧
      g'.getCell h1 = some ⟨some h0, clampStep c1.rotationProgress dt, c1.color⟩ ∧
      g'.getCell h2 = some ⟨some h1, clampStep c2.rotationProgress dt, c2.color⟩ ∧
      (∀ x, hexEq h0 x = false → hexEq h1 x = false → hexEq h2 x = false →
        g'.getCell x = g.getCell x) ∧
      g'.cells.map Prod.fst = g.cells.map Prod.fst ∧
      (∀ p ∈ g'.cells, hexEq p.1 h0 = false → hexEq p.1 h1 = false →
        hexEq p.1 h2 = false → p ∈ g.cells) := by
  have h10 := hexEq_false_symm h01
  have h20 := hexEq_false_symm h02
  have h21 := hexEq_false_symm h12
  have e0 := Cell.stepRotation_of_some ht0 dt
  have e1 := Cell.stepRotation_of_some ht1 dt
  have e2 := Cell.stepRotation_of_some ht2 dt
  have hcnd : ((⟨some h2, clampStep c0.rotationProgress dt, c0.color⟩ : Cell).rotationDone &&
      (⟨some h0, clampStep c1.rotationProgress dt, c1.color⟩ : Cell).rotationDone &&
      (⟨some h1, clampStep c2.rotationProgress dt, c2.color⟩ : Cell).rotationDone) = false := by
    by_cases d0 : 1 ≤ clampStep c0.rotationProgress dt
    · by_cases d1 : 1 ≤ clampStep c1.rotationProgress dt
      · by_cases d2 : 1 ≤ clampStep c2.rotationProgress dt
        · exact absurd ⟨d0, d1, d2⟩ hnc
        · simp [Cell.rotationDone, d2]
      · simp [Cell.rotationDone, d1]
    · simp [Cell.rotationDone, d0]
  refine ⟨((g.setCell h0 ⟨some h2, clampStep c0.rotationProgress dt, c0.color⟩).setCell
      h1 ⟨some h0, clampStep c1.rotationProgress dt, c1.color⟩).setCell
      h2 ⟨some h1, clampStep c2.rotationProgress dt, c2.color⟩,
    ?_, hrot, ?_, ?_, ?_, ?_, ?_, ?_⟩
  · rw [stepRotation_rotating dt hrot]
    unfold HexMap.stepRotationAux
    rw [hc0, hc1, hc2]
    simp only [Option.some_bind, e0, e1, e2]
    rw [hcnd, if_neg Bool.false_ne_true]
  · rw [getCell_setCell_ne _ h20, getCell_setCell_ne _ h10]
    exact getCell_setCell_self _ (by rw [hc0]; rfl)
  · rw [getCell_setCell_ne _ h21]
    apply getCell_setCell_self
    rw [getCell_setCell_ne _ h01, hc1]
    rfl
  · apply getCell_setCell_self
    rw [getCell_setCell_ne _ h12, getCell_setCell_ne _ h02, hc2]
    rfl
  · intro x hx0 hx1 hx2
    rw [getCell_setCell_ne _ hx2, getCell_setCell_ne _ hx1, getCell_setCell_ne _ hx0]
  · rw [setCell_keys, setCell_keys, setCell_keys]
  · intro p hp hne0 hne1 hne2
    rw [HexMap.setCell] at hp
    have hpa := mem_updateCell_of_ne hp hne2
    rw [HexMap.setCell] at hpa
    have hpb := mem_updateCell_of_ne hpa hne1
    rw [HexMap.setCell] at hpb
    exact mem_updateCell_of_ne hpb hne0

/-- One `stepRotation` call on a well-formed rotating grid in which all three
cells finish: the rotation commits — slot `h0` receives `h1`'s color, `h1`
receives `h2`'s, `h2` receives `h0`'s, all three slots are reset, the
descriptor is cleared — and nothing else changes. -/
theorem stepRotation_commit_aux
    (g : HexMap) (dt : ℚ) (h0 h1 h2 : Hex) (c0 c1 c2 : Cell)
    (hrot : g.rotation = some (h0, h1, h2))
    (h01 : hexEq h0 h1 = false) (h02 : hexEq h0 h2 = false) (h12 : hexEq h1 h2 = false)
    (hc0 : g.getCell h0 = some c0) (hc1 : g.getCell h1 = some c1)
    (hc2 : g.getCell h2 = some c2)
    (ht0 : c0.rotatingTo = some h2) (ht1 : c1.rotatingTo = some h0)
    (ht2 : c2.rotatingTo = some h1)
    (hdc : 1 ≤ clampStep c0.rotationProgress dt ∧ 1 ≤ clampStep c1.rotationProgress dt ∧
           1 ≤ clampStep c2.rotationProgress dt) :
    ∃ g', g.stepRotation dt = some g' ∧
      g'.rotation = none ∧
      g'.getCell h0 = some ⟨none, -1, c1.color⟩ ∧
      g'.getCell h1 = some ⟨none, -1, c2.color⟩ ∧
      g'.getCell h2 = some ⟨none, -1, c0.color⟩ ∧
      (∀ x, hexEq h0 x = false → hexEq h1 x = false → hexEq h2 x = false →
        g'.getCell x = g.getCell x) ∧
      g'.cells.map Prod.fst = g.cells.map Prod.fst ∧
      (∀ p ∈ g'.cells, p.2.rotatingTo = none ∨
        (p ∈ g.cells ∧ hexEq p.1 h0 = false ∧ hexEq p.1 h1 = false ∧
          hexEq p.1 h2 = false)) := by
  have h10 := hexEq_false_symm h01
  have h20 := hexEq_false_symm h02
  have h21 := hexEq_false_symm h12
  have e0 := Cell.stepRotation_of_some ht0 dt
  have e1 := Cell.stepRotation_of_some ht1 dt
  have e2 := Cell.stepRotation_of_some ht2 dt
  have hcnd : ((⟨some h2, clampStep c0.rotationProgress dt, c0.color⟩ : Cell).rotationDone &&
      (⟨some h0, clampStep c1.rotationProgress dt, c1.color⟩ : Cell).rotationDone &&
      (⟨some h1, clampStep c2.rotationProgress dt, c2.color⟩ : Cell).rotationDone) = true := by
    simp [Cell.rotationDone, hdc.1, hdc.2.1, hdc.2.2]
  have hg1_0 : (((g.setCell h0 ⟨some h2, clampStep c0.rotationProgress dt, c0.color⟩).setCell
      h1 ⟨some h0, clampStep c1.rotationProgress dt, c1.color⟩).setCell
      h2 ⟨some h1, clampStep c2.rotationProgress dt, c2.color⟩).getCell h0 =
      some ⟨some h2, clampStep c0.rotationProgress dt, c0.color⟩ := by
    rw [getCell_setCell_ne _ h20, getCell_setCell_ne _ h10]
    exact getCell_setCell_self _ (by rw [hc0]; rfl)
  have hg1_1 : (((g.setCell h0 ⟨some h2, clampStep c0.rotationProgress dt, c0.color⟩).setCell
      h1 ⟨some h0, clampStep c1.rotationProgress dt, c1.color⟩).setCell
      h2 ⟨some h1, clampStep c2.rotationProgress dt, c2.color⟩).getCell h1 =
      some ⟨some h0, clampStep c1.rotationProgress dt, c1.color⟩ := by
    rw [getCell_setCell_ne _ h21]
    apply getCell_setCell_self
    rw [getCell_setCell_ne _ h01, hc1]
    rfl
  have hg1_2 : (((g.setCell h0 ⟨some h2, clampStep c0.rotationProgress dt, c0.color⟩).setCell
      h1 ⟨some h0, clampStep c1.rotationProgress dt, c1.color⟩).setCell
      h2 ⟨some h1, clampStep c2.rotationProgress dt, c2.color⟩).getCell h2 =
      some ⟨some h1, clampStep c2.rotationProgress dt, c2.color⟩ := by
    apply getCell_setCell_self
    rw [getCell_setCell_ne _ h12, getCell_setCell_ne _ h02, hc2]
    rfl
  obtain ⟨g', hcg, hrot', hga, hgb, hgc, hframe, hkeys, hmem⟩ :=
    commitRotation_aux
      (((g.setCell h0 ⟨some h2, clampStep c0.rotationProgress dt, c0.color⟩).setCell
        h1 ⟨some h0, clampStep c1.rotationProgress dt, c1.color⟩).setCell
        h2 ⟨some h1, clampStep c2.rotationProgress dt, c2.color⟩)
      h0 h1 h2 _ _ _ h01 h02 h12 hg1_0 hg1_1 hg1_2 rfl rfl rfl
  refine ⟨g', ?_, hrot', hga, hgb, hgc, ?_, ?_, ?_⟩
  · rw [stepRotation_rotating dt hrot]
    unfold HexMap.stepRotationAux
    rw [hc0, hc1, hc2]
    simp only [Option.some_bind, e0, e1, e2]
    rw [hcnd, if_pos rfl]
    exact hcg
  · intro x hx0 hx1 hx2
    rw [hframe x hx0 hx1 hx2, getCell_setCell_ne _ hx2, getCell_setCell_ne _ hx1,
      getCell_setCell_ne _ hx0]
  · rw [hkeys, setCell_keys, setCell_keys, setCell_keys]
  · intro p hp
    rcases hmem p hp with hnone | ⟨hpG1, hne0, hne1, hne2⟩
    · exact Or.inl hnone
    · refine Or.inr ⟨?_, hne0, hne1, hne2⟩
      rw [HexMap.setCell] at hpG1
      have hpa := mem_updateCell_of_ne hpG1 hne2
      rw [HexMap.setCell] at hpa
      have hpb := mem_updateCell_of_ne hpa hne1
      rw [HexMap.setCell] at hpb
      exact mem_updateCell_of_ne hpb hne0

theorem one_le_clampStep {p dt : ℚ} (h : 1 ≤ p + dt * 4) : 1 ≤ clampStep p dt := by
  unfold clampStep
  split
  · exact le_refl 1
  · exact h

theorem clampStep_of_lt {p dt : ℚ} (h : p + dt * 4 < 1) : clampStep p dt = p + dt * 4 := by
  unfold clampStep
  rw [if_neg (by linarith)]

/-- Running `stepRotation` over a list of nonnegative delta-times from a
well-formed rotating state with common progress `p`: if the accumulated
progress `p + 4 * Σ ds` reaches `1` the rotation has committed (and further
steps are no-ops); otherwise the grid is still rotating with exactly that
accumulated progress. -/
theorem rotation_run_aux
    (ds : List ℚ) (g : HexMap) (h0 h1 h2 : Hex) (c0 c1 c2 : Cell) (p : ℚ)
    (hd : ∀ d ∈ ds, 0 ≤ d)
    (hrot : g.rotation = some (h0, h1, h2))
    (h01 : hexEq h0 h1 = false) (h02 : hexEq h0 h2 = false) (h12 : hexEq h1 h2 = false)
    (hc0 : g.getCell h0 = some c0) (hc1 : g.getCell h1 = some c1)
    (hc2 : g.getCell h2 = some c2)
    (ht0 : c0.rotatingTo = some h2) (ht1 : c1.rotatingTo = some h0)
    (ht2 : c2.rotatingTo = some h1)
    (hp0 : c0.rotationProgress = p) (hp1 : c1.rotationProgress = p)
    (hp2 : c2.rotationProgress = p)
    (hple : 0 ≤ p) (hplt : p < 1) :
    ∃ g', g.stepRotationMany ds = some g' ∧
      g'.cells.map Prod.fst = g.cells.map Prod.fst ∧
      (∀ x, hexEq h0 x = false → hexEq h1 x = false → hexEq h2 x = false →
        g'.getCell x = g.getCell x) ∧
      (1 ≤ p + 4 * ds.sum →
        g'.rotation = none ∧
        g'.getCell h0 = some ⟨none, -1, c1.color⟩ ∧
        g'.getCell h1 = some ⟨none, -1, c2.color⟩ ∧
        g'.getCell h2 = some ⟨none, -1, c0.color⟩) ∧
      (p + 4 * ds.sum < 1 →
        g'.rotation = some (h0, h1, h2) ∧
        g'.getCell h0 = some ⟨some h2, p + 4 * ds.sum, c0.color⟩ ∧
        g'.getCell h1 = some ⟨some h0, p + 4 * ds.sum, c1.color⟩ ∧
        g'.getCell h2 = some ⟨some h1, p + 4 * ds.sum, c2.color⟩) := by
  induction ds generalizing g c0 c1 c2 p with
  | nil =>
    refine ⟨g, rfl, rfl, fun x _ _ _ => rfl, ?_, ?_⟩
    · intro habs
      simp only [List.sum_nil, mul_zero, add_zero] at habs
      exact absurd habs (by linarith)
    · intro _
      simp only [List.sum_nil, mul_zero, add_zero]
      have hce0 : c0 = ⟨some h2, p, c0.color⟩ := by
        obtain ⟨t, pr, col⟩ := c0
        simp only at ht0 hp0 ⊢
        rw [ht0, hp0]
      have hce1 : c1 = ⟨some h0, p, c1.color⟩ := by
        obtain ⟨t, pr, col⟩ := c1
        simp only at ht1 hp1 ⊢
        rw [ht1, hp1]
      have hce2 : c2 = ⟨some h1, p, c2.color⟩ := by
        obtain ⟨t, pr, col⟩ := c2
        simp only at ht2 hp2 ⊢
        rw [ht2, hp2]
      exact ⟨hrot, by rw [hc0, ← hce0], by rw [hc1, ← hce1], by rw [hc2, ← hce2]⟩
  | cons d ds ih =>
    have hd0 : 0 ≤ d := hd d (List.mem_cons_self d ds)
    have hds : ∀ x ∈ ds, 0 ≤ x := fun x hx => hd x (List.mem_cons_of_mem d hx)
    have hsum_nonneg : 0 ≤ ds.sum := List.sum_nonneg hds
    by_cases hcm : 1 ≤ p + d * 4
    · obtain ⟨g₂, hstep, hrot₂, hA, hB, hC, hframe₂, hkeys₂, _⟩ :=
        stepRotation_commit_aux g d h0 h1 h2 c0 c1 c2 hrot h01 h02 h12 hc0 hc1 hc2
          ht0 ht1 ht2
          ⟨one_le_clampStep (by rw [hp0]; exact hcm),
           one_le_clampStep (by rw [hp1]; exact hcm),
           one_le_clampStep (by rw [hp2]; exact hcm)⟩
      refine ⟨g₂, ?_, hkeys₂, hframe₂, ?_, ?_⟩
      · simp only [HexMap.stepRotationMany, hstep, Option.some_bind]
        exact stepRotationMany_idle ds hrot₂
      · intro _
        exact ⟨hrot₂, hA, hB, hC⟩
      · intro habs
        rw [List.sum_cons] at habs
        exact absurd habs (by linarith)
    · have hlt : p + d * 4 < 1 := by linarith
      have hcl0 : clampStep c0.rotationProgress d = p + d * 4 := by
        rw [hp0]; exact clampStep_of_lt hlt
      have hcl1 : clampStep c1.rotationProgress d = p + d * 4 := by
        rw [hp1]; exact clampStep_of_lt hlt
      have hcl2 : clampStep c2.rotationProgress d = p + d * 4 := by
        rw [hp2]; exact clampStep_of_lt hlt
      obtain ⟨g₂, hstep, hrot₂, hA2, hB2, hC2, hframe₂, hkeys₂, _⟩ :=
        stepRotation_advance_aux g d h0 h1 h2 c0 c1 c2 hrot h01 h02 h12 hc0 hc1 hc2
          ht0 ht1 ht2
          (by rw [hcl0]; intro hx; exact absurd hx.1 (by linarith))
      rw [hcl0] at hA2
      rw [hcl1] at hB2
      rw [hcl2] at hC2
      obtain ⟨g₃, hmany, hkeys₃, hframe₃, hcommit₃, hrotating₃⟩ :=
        ih g₂ _ _ _ (p + d * 4) hds hrot₂ hA2 hB2 hC2 rfl rfl rfl rfl rfl rfl
          (by linarith) hlt
      have hsum_eq : p + d * 4 + 4 * ds.sum = p + 4 * (d :: ds).sum := by
        rw [List.sum_cons]; ring
      refine ⟨g₃, ?_, ?_, ?_, ?_, ?_⟩
      · simp only [HexMap.stepRotationMany, hstep, Option.some_bind]
        exact hmany
      · rw [hkeys₃, hkeys₂]
      · intro x hx0 hx1 hx2
        rw [hframe₃ x hx0 hx1 hx2, hframe₂ x hx0 hx1 hx2]
      · intro hfin
        rw [← hsum_eq] at hfin
        exact hcommit₃ hfin
      · intro hfin
        rw [← hsum_eq] at hfin
        obtain ⟨hr, ha, hb, hc⟩ := hrotating₃ hfin
        rw [hsum_eq] at ha hb hc
        exact ⟨hr, ha, hb, hc⟩

theorem clampStep_eq_min (p dt : ℚ) : clampStep p dt = min (p + dt * 4) 1 := by
  unfold clampStep
  split
  · rw [min_eq_right]
    linarith
  · rw [min_eq_left]
    linarith

/-- C3: on an idle grid containing cells at the three pairwise-distinct
coordinates `h0 h1 h2`, `startRotation` records `(h0,h1,h2)` as the active
rotation descriptor, sets `cell(h1).rotatingTo = h0`,
`cell(h2).rotatingTo = h1`, `cell(h0).rotatingTo = h2`, resets each of the
three cells' `rotationProgress` to `0` (colors untouched), and the grid is
now Rotating. -/
theorem startRotation_sets_cycle_targets
    (g : HexMap) (h0 h1 h2 : Hex) (c0 c1 c2 : Cell)
    (hidle : g.rotation = none)
    (h01 : hexEq h0 h1 = false) (h02 : hexEq h0 h2 = false) (h12 : hexEq h1 h2 = false)
    (hc0 : g.getCell h0 = some c0) (hc1 : g.getCell h1 = some c1)
    (hc2 : g.getCell h2 = some c2) :
    ∃ g', g.startRotation h0 h1 h2 = some g' ∧
      g'.rotation = some (h0, h1, h2) ∧
      g'.getCell h1 = some ⟨some h0, 0, c1.color⟩ ∧
      g'.getCell h2 = some ⟨some h1, 0, c2.color⟩ ∧
      g'.getCell h0 = some ⟨some h2, 0, c0.color⟩ := by
  obtain ⟨g', heq, hrot, ha, hb, hc, _, _, _⟩ :=
    startRotation_aux g h0 h1 h2 c0 c1 c2 h01 h02 h12 hc0 hc1 hc2
  exact ⟨g', heq, hrot, hb, hc, ha⟩

theorem startRotation_sets_cycle_targets_witness :
    ∃ g', (HexMap.mk [(⟨0, 0, 0⟩, ⟨none, 0, 1⟩), (⟨1, 0, -1⟩, ⟨none, 0, 2⟩),
        (⟨0, 1, -1⟩, ⟨none, 0, 3⟩)] none).startRotation ⟨0, 0, 0⟩ ⟨1, 0, -1⟩ ⟨0, 1, -1⟩ =
        some g' ∧
      g'.rotation = some (⟨0, 0, 0⟩, ⟨1, 0, -1⟩, ⟨0, 1, -1⟩) ∧
      g'.getCell ⟨1, 0, -1⟩ = some ⟨some ⟨0, 0, 0⟩, 0, 2⟩ ∧
      g'.getCell ⟨0, 1, -1⟩ = some ⟨some ⟨1, 0, -1⟩, 0, 3⟩ ∧
      g'.getCell ⟨0, 0, 0⟩ = some ⟨some ⟨0, 1, -1⟩, 0, 1⟩ :=
  startRotation_sets_cycle_targets _ _ _ _ ⟨none, 0, 1⟩ ⟨none, 0, 2⟩ ⟨none, 0, 3⟩
    rfl (by decide) (by decide) (by decide) rfl rfl rfl

/-- C2: on a well-formed rotating grid, one `stepRotation dt` call with
`dt ≥ 0` advances each selected cell's progress by `dt * 4`, clamped to at
most `1` (observable in the resulting state whenever the call does not
commit), and the grid commits — returns to Idle in that same call — iff all
three advanced progresses reach `1`; in particular a single step with
`dt ≥ 1/4` from freshly started progress `0` commits in that same call. -/
theorem stepRotation_advances_and_commit_iff
    (g : HexMap) (dt : ℚ) (h0 h1 h2 : Hex) (c0 c1 c2 : Cell)
    (hrot : g.rotation = some (h0, h1, h2))
    (h01 : hexEq h0 h1 = false) (h02 : hexEq h0 h2 = false) (h12 : hexEq h1 h2 = false)
    (hc0 : g.getCell h0 = some c0) (hc1 : g.getCell h1 = some c1)
    (hc2 : g.getCell h2 = some c2)
    (ht0 : c0.rotatingTo = some h2) (ht1 : c1.rotatingTo = some h0)
    (ht2 : c2.rotatingTo = some h1)
    (hdt : 0 ≤ dt) :
    ∃ g', g.stepRotation dt = some g' ∧
      (g'.rotation = none ↔
        (1 ≤ min (c0.rotationProgress + dt * 4) 1 ∧
         1 ≤ min (c1.rotationProgress + dt * 4) 1 ∧
         1 ≤ min (c2.rotationProgress + dt * 4) 1)) ∧
      (g'.rotation = some (h0, h1, h2) →
        g'.getCell h0 = some ⟨some h2, min (c0.rotationProgress + dt * 4) 1, c0.color⟩ ∧
        g'.getCell h1 = some ⟨some h0, min (c1.rotationProgress + dt * 4) 1, c1.color⟩ ∧
        g'.getCell h2 = some ⟨some h1, min (c2.rotationProgress + dt * 4) 1, c2.color⟩) ∧
      (c0.rotationProgress = 0 → c1.rotationProgress = 0 → c2.rotationProgress = 0 →
        1 / 4 ≤ dt → g'.rotation = none) := by
  by_cases hdc : 1 ≤ clampStep c0.rotationProgress dt ∧ 1 ≤ clampStep c1.rotationProgress dt ∧
      1 ≤ clampStep c2.rotationProgress dt
  · obtain ⟨g', heq, hrot', _, _, _, _, _, _⟩ :=
      stepRotation_commit_aux g dt h0 h1 h2 c0 c1 c2 hrot h01 h02 h12 hc0 hc1 hc2
        ht0 ht1 ht2 hdc
    refine ⟨g', heq, ?_, ?_, fun _ _ _ _ => hrot'⟩
    · rw [hrot', ← clampStep_eq_min, ← clampStep_eq_min, ← clampStep_eq_min]
      exact iff_of_true rfl hdc
    · intro habs
      rw [hrot'] at habs
      cases habs
  · obtain ⟨g', heq, hrot', ha, hb, hc, _, _, _⟩ :=
      stepRotation_advance_aux g dt h0 h1 h2 c0 c1 c2 hrot h01 h02 h12 hc0 hc1 hc2
        ht0 ht1 ht2 hdc
    refine ⟨g', heq, ?_, ?_, ?_⟩
    · rw [hrot', ← clampStep_eq_min, ← clampStep_eq_min, ← clampStep_eq_min]
      exact iff_of_false (Option.some_ne_none _) hdc
    · intro _
      rw [← clampStep_eq_min, ← clampStep_eq_min, ← clampStep_eq_min]
      exact ⟨ha, hb, hc⟩
    · intro hz0 hz1 hz2 hq
      exfalso
      apply hdc
      rw [hz0, hz1, hz2]
      have : 1 ≤ (0 : ℚ) + dt * 4 := by linarith
      exact ⟨one_le_clampStep this, one_le_clampStep this, one_le_clampStep this⟩

theorem stepRotation_advances_and_commit_iff_witness :
    ∃ g', (HexMap.mk [(⟨0, 0, 0⟩, ⟨some ⟨0, 1, -1⟩, 0, 1⟩),
        (⟨1, 0, -1⟩, ⟨some ⟨0, 0, 0⟩, 0, 2⟩), (⟨0, 1, -1⟩, ⟨some ⟨1, 0, -1⟩, 0, 3⟩)]
        (some (⟨0, 0, 0⟩, ⟨1, 0, -1⟩, ⟨0, 1, -1⟩))).stepRotation (1 / 8) = some g' ∧
      (g'.rotation = none ↔
        (1 ≤ min ((0 : ℚ) + 1 / 8 * 4) 1 ∧ 1 ≤ min ((0 : ℚ) + 1 / 8 * 4) 1 ∧
         1 ≤ min ((0 : ℚ) + 1 / 8 * 4) 1)) ∧
      (g'.rotation = some (⟨0, 0, 0⟩, ⟨1, 0, -1⟩, ⟨0, 1, -1⟩) →
        g'.getCell ⟨0, 0, 0⟩ = some ⟨some ⟨0, 1, -1⟩, min ((0 : ℚ) + 1 / 8 * 4) 1, 1⟩ ∧
        g'.getCell ⟨1, 0, -1⟩ = some ⟨some ⟨0, 0, 0⟩, min ((0 : ℚ) + 1 / 8 * 4) 1, 2⟩ ∧
        g'.getCell ⟨0, 1, -1⟩ = some ⟨some ⟨1, 0, -1⟩, min ((0 : ℚ) + 1 / 8 * 4) 1, 3⟩) ∧
      ((0 : ℚ) = 0 → (0 : ℚ) = 0 → (0 : ℚ) = 0 → (1 : ℚ) / 4 ≤ 1 / 8 →
        g'.rotation = none) :=
  stepRotation_advances_and_commit_iff _ (1 / 8) _ _ _ ⟨some ⟨0, 1, -1⟩, 0, 1⟩
    ⟨some ⟨0, 0, 0⟩, 0, 2⟩ ⟨some ⟨1, 0, -1⟩, 0, 3⟩ rfl (by decide) (by decide) (by decide)
    rfl rfl rfl rfl rfl rfl (by norm_num)

/-- C10: on a well-formed rotating grid, a `stepRotation dt` call (any `dt`)
modifies at most the three cells stored at the descriptor coordinates: every
other key's cell is unchanged, and the key set of the mapping is unchanged. -/
theorem stepRotation_frame
    (g : HexMap) (dt : ℚ) (h0 h1 h2 : Hex) (c0 c1 c2 : Cell)
    (hrot : g.rotation = some (h0, h1, h2))
    (h01 : hexEq h0 h1 = false) (h02 : hexEq h0 h2 = false) (h12 : hexEq h1 h2 = false)
    (hc0 : g.getCell h0 = some c0) (hc1 : g.getCell h1 = some c1)
    (hc2 : g.getCell h2 = some c2)
    (ht0 : c0.rotatingTo = some h2) (ht1 : c1.rotatingTo = some h0)
    (ht2 : c2.rotatingTo = some h1) :
    ∃ g', g.stepRotation dt = some g' ∧
      (∀ x, hexEq x h0 = false → hexEq x h1 = false → hexEq x h2 = false →
        g'.getCell x = g.getCell x) ∧
      g'.cells.map Prod.fst = g.cells.map Prod.fst := by
  by_cases hdc : 1 ≤ clampStep c0.rotationProgress dt ∧ 1 ≤ clampStep c1.rotationProgress dt ∧
      1 ≤ clampStep c2.rotationProgress dt
  · obtain ⟨g', heq, _, _, _, _, hframe, hkeys, _⟩ :=
      stepRotation_commit_aux g dt h0 h1 h2 c0 c1 c2 hrot h01 h02 h12 hc0 hc1 hc2
        ht0 ht1 ht2 hdc
    exact ⟨g', heq,
      fun x hx0 hx1 hx2 =>
        hframe x (hexEq_false_symm hx0) (hexEq_false_symm hx1) (hexEq_false_symm hx2),
      hkeys⟩
  · obtain ⟨g', heq, _, _, _, _, hframe, hkeys, _⟩ :=
      stepRotation_advance_aux g dt h0 h1 h2 c0 c1 c2 hrot h01 h02 h12 hc0 hc1 hc2
        ht0 ht1 ht2 hdc
    exact ⟨g', heq,
      fun x hx0 hx1 hx2 =>
        hframe x (hexEq_false_symm hx0) (hexEq_false_symm hx1) (hexEq_false_symm hx2),
      hkeys⟩

theorem stepRotation_frame_witness :
    ∃ g', (HexMap.mk [(⟨0, 0, 0⟩, ⟨some ⟨0, 1, -1⟩, 0, 1⟩),
        (⟨1, 0, -1⟩, ⟨some ⟨0, 0, 0⟩, 0, 2⟩), (⟨0, 1, -1⟩, ⟨some ⟨1, 0, -1⟩, 0, 3⟩),
        (⟨2, 0, -2⟩, ⟨none, 0, 4⟩)]
        (some (⟨0, 0, 0⟩, ⟨1, 0, -1⟩, ⟨0, 1, -1⟩))).stepRotation (1 / 2) = some g' ∧
      (∀ x, hexEq x ⟨0, 0, 0⟩ = false → hexEq x ⟨1, 0, -1⟩ = false →
        hexEq x ⟨0, 1, -1⟩ = false →
        g'.getCell x = (HexMap.mk [(⟨0, 0, 0⟩, ⟨some ⟨0, 1, -1⟩, 0, 1⟩),
          (⟨1, 0, -1⟩, ⟨some ⟨0, 0, 0⟩, 0, 2⟩), (⟨0, 1, -1⟩, ⟨some ⟨1, 0, -1⟩, 0, 3⟩),
          (⟨2, 0, -2⟩, ⟨none, 0, 4⟩)]
          (some (⟨0, 0, 0⟩, ⟨1, 0, -1⟩, ⟨0, 1, -1⟩))).getCell x) ∧
      g'.cells.map Prod.fst = [(⟨0, 0, 0⟩ : Hex), ⟨1, 0, -1⟩, ⟨0, 1, -1⟩, ⟨2, 0, -2⟩] :=
  stepRotation_frame _ (1 / 2) _ _ _ ⟨some ⟨0, 1, -1⟩, 0, 1⟩ ⟨some ⟨0, 0, 0⟩, 0, 2⟩
    ⟨some ⟨1, 0, -1⟩, 0, 3⟩ rfl (by decide) (by decide) (by decide) rfl rfl rfl rfl rfl rfl

/-- C1 (amended): on an idle grid with cells at three pairwise-distinct
coordinates, `startRotation (h0,h1,h2)` followed by `stepRotation` steps of
any nonnegative sizes with cumulative `dt ≥ 1/4` leaves the grid Idle again
with the colors cycled one step *against* the descriptor order: the color
formerly at `h1` is now at `h0`, `h2`'s former color is at `h1`, and `h0`'s
former color is at `h2` — a pure 3-cycle of the three colors, no color lost
or duplicated, all other cells and the key set unchanged. -/
theorem rotation_commits_inverse_cycle
    (g : HexMap) (h0 h1 h2 : Hex) (c0 c1 c2 : Cell) (ds : List ℚ)
    (hidle : g.rotation = none)
    (h01 : hexEq h0 h1 = false) (h02 : hexEq h0 h2 = false) (h12 : hexEq h1 h2 = false)
    (hc0 : g.getCell h0 = some c0) (hc1 : g.getCell h1 = some c1)
    (hc2 : g.getCell h2 = some c2)
    (hd : ∀ d ∈ ds, 0 ≤ d) (hdsum : 1 / 4 ≤ ds.sum) :
    ∃ g₁ g₂, g.startRotation h0 h1 h2 = some g₁ ∧
      g₁.stepRotationMany ds = some g₂ ∧
      g₂.rotation = none ∧
      g₂.getCell h0 = some ⟨none, -1, c1.color⟩ ∧
      g₂.getCell h1 = some ⟨none, -1, c2.color⟩ ∧
      g₂.getCell h2 = some ⟨none, -1, c0.color⟩ ∧
      (∀ x, hexEq h0 x = false → hexEq h1 x = false → hexEq h2 x = false →
        g₂.getCell x = g.getCell x) ∧
      g₂.cells.map Prod.fst = g.cells.map Prod.fst := by
  obtain ⟨g₁, hseq, hrot₁, ha₁, hb₁, hc₁, hframe₁, hkeys₁, _⟩ :=
    startRotation_aux g h0 h1 h2 c0 c1 c2 h01 h02 h12 hc0 hc1 hc2
  obtain ⟨g₂, hmany, hkeys₂, hframe₂, hcommit₂, _⟩ :=
    rotation_run_aux ds g₁ h0 h1 h2 _ _ _ 0 hd hrot₁ h01 h02 h12 ha₁ hb₁ hc₁
      rfl rfl rfl rfl rfl rfl (le_refl 0) (by norm_num)
  obtain ⟨hrot₂, hfa, hfb, hfc⟩ := hcommit₂ (by linarith)
  exact ⟨g₁, g₂, hseq, hmany, hrot₂, hfa, hfb, hfc,
    fun x hx0 hx1 hx2 => (hframe₂ x hx0 hx1 hx2).trans (hframe₁ x hx0 hx1 hx2),
    hkeys₂.trans hkeys₁⟩

theorem rotation_commits_inverse_cycle_witness :
    ∃ g₁ g₂, (HexMap.mk [(⟨0, 0, 0⟩, ⟨none, 0, 10⟩), (⟨1, 0, -1⟩, ⟨none, 0, 20⟩),
        (⟨0, 1, -1⟩, ⟨none, 0, 30⟩)] none).startRotation ⟨0, 0, 0⟩ ⟨1, 0, -1⟩ ⟨0, 1, -1⟩ =
        some g₁ ∧
      g₁.stepRotationMany [1 / 8, 1 / 8] = some g₂ ∧
      g₂.rotation = none ∧
      g₂.getCell ⟨0, 0, 0⟩ = some ⟨none, -1, 20⟩ ∧
      g₂.getCell ⟨1, 0, -1⟩ = some ⟨none, -1, 30⟩ ∧
      g₂.getCell ⟨0, 1, -1⟩ = some ⟨none, -1, 10⟩ ∧
      (∀ x, hexEq ⟨0, 0, 0⟩ x = false → hexEq ⟨1, 0, -1⟩ x = false →
        hexEq ⟨0, 1, -1⟩ x = false →
        g₂.getCell x = (HexMap.mk [(⟨0, 0, 0⟩, ⟨none, 0, 10⟩), (⟨1, 0, -1⟩, ⟨none, 0, 20⟩),
          (⟨0, 1, -1⟩, ⟨none, 0, 30⟩)] none).getCell x) ∧
      g₂.cells.map Prod.fst = [(⟨0, 0, 0⟩ : Hex), ⟨1, 0, -1⟩, ⟨0, 1, -1⟩] :=
  rotation_commits_inverse_cycle _ _ _ _ ⟨none, 0, 10⟩ ⟨none, 0, 20⟩ ⟨none, 0, 30⟩
    [1 / 8, 1 / 8] rfl (by decide) (by decide) (by decide) rfl rfl rfl
    (by
      intro d hd
      rw [List.mem_cons] at hd
      rcases hd with h | hd
      · rw [h]; norm_num
      · rw [List.mem_singleton] at hd
        rw [hd]; norm_num)
    (by norm_num [List.sum_cons, List.sum_nil])

/-- C1 as frozen is false on the code: it predicts that after
`startRotation([h0,h1,h2])` and a committing `stepRotation`, the color
formerly at `h0` is at `h1`; on a concrete grid whose cells at
`h0 = (0,0,0)`, `h1 = (1,0,-1)`, `h2 = (0,1,-1)` hold colors `10, 20, 30`,
the committed grid holds color `30` (formerly at `h2`), not `10`, at `h1`. -/
theorem rotation_cycle_direction_counterexample :
    ((((HexMap.mk [(⟨0, 0, 0⟩, ⟨none, 0, 10⟩), (⟨1, 0, -1⟩, ⟨none, 0, 20⟩),
        (⟨0, 1, -1⟩, ⟨none, 0, 30⟩)] none).startRotation ⟨0, 0, 0⟩ ⟨1, 0, -1⟩
        ⟨0, 1, -1⟩).bind fun g₁ => g₁.stepRotation (1 / 4)).bind fun g₂ =>
        (g₂.getCell ⟨1, 0, -1⟩).map Cell.color) = some 30 ∧
    ¬((((HexMap.mk [(⟨0, 0, 0⟩, ⟨none, 0, 10⟩), (⟨1, 0, -1⟩, ⟨none, 0, 20⟩),
        (⟨0, 1, -1⟩, ⟨none, 0, 30⟩)] none).startRotation ⟨0, 0, 0⟩ ⟨1, 0, -1⟩
        ⟨0, 1, -1⟩).bind fun g₁ => g₁.stepRotation (1 / 4)).bind fun g₂ =>
        (g₂.getCell ⟨1, 0, -1⟩).map Cell.color) = some 10 := by
  have hstart : (HexMap.mk [(⟨0, 0, 0⟩, ⟨none, 0, 10⟩), (⟨1, 0, -1⟩, ⟨none, 0, 20⟩),
      (⟨0, 1, -1⟩, ⟨none, 0, 30⟩)] none).startRotation ⟨0, 0, 0⟩ ⟨1, 0, -1⟩ ⟨0, 1, -1⟩ =
      some (HexMap.mk [(⟨0, 0, 0⟩, ⟨some ⟨0, 1, -1⟩, 0, 10⟩),
        (⟨1, 0, -1⟩, ⟨some ⟨0, 0, 0⟩, 0, 20⟩), (⟨0, 1, -1⟩, ⟨some ⟨1, 0, -1⟩, 0, 30⟩)]
        (some (⟨0, 0, 0⟩, ⟨1, 0, -1⟩, ⟨0, 1, -1⟩))) := rfl
  have hone : (1 : ℚ) ≤ clampStep 0 (1 / 4) := by norm_num [clampStep]
  obtain ⟨g₂, hstep, _, _, hB, _, _, _, _⟩ :=
    stepRotation_commit_aux
      (HexMap.mk [(⟨0, 0, 0⟩, ⟨some ⟨0, 1, -1⟩, 0, 10⟩),
        (⟨1, 0, -1⟩, ⟨some ⟨0, 0, 0⟩, 0, 20⟩), (⟨0, 1, -1⟩, ⟨some ⟨1, 0, -1⟩, 0, 30⟩)]
        (some (⟨0, 0, 0⟩, ⟨1, 0, -1⟩, ⟨0, 1, -1⟩)))
      (1 / 4) ⟨0, 0, 0⟩ ⟨1, 0, -1⟩ ⟨0, 1, -1⟩ ⟨some ⟨0, 1, -1⟩, 0, 10⟩
      ⟨some ⟨0, 0, 0⟩, 0, 20⟩ ⟨some ⟨1, 0, -1⟩, 0, 30⟩ rfl (by decide) (by decide)
      (by decide) rfl rfl rfl rfl rfl rfl ⟨hone, hone, hone⟩
  rw [hstart]
  simp only [Option.some_bind]
  rw [hstep]
  simp only [Option.some_bind]
  rw [hB]
  simp

/-- C5: from a freshly started rotation (all three progresses `0`) on a
well-formed rotating grid, repeated `stepRotation dt` calls with a fixed
`dt > 0` leave the grid Rotating for the first `⌈(1/4)/dt⌉ - 1` calls and
commit exactly on the `⌈(1/4)/dt⌉`-th call; and `stepRotation` on any idle
grid changes nothing. -/
theorem stepRotation_commit_count
    (g : HexMap) (dt : ℚ) (h0 h1 h2 : Hex) (c0 c1 c2 : Cell)
    (hrot : g.rotation = some (h0, h1, h2))
    (h01 : hexEq h0 h1 = false) (h02 : hexEq h0 h2 = false) (h12 : hexEq h1 h2 = false)
    (hc0 : g.getCell h0 = some c0) (hc1 : g.getCell h1 = some c1)
    (hc2 : g.getCell h2 = some c2)
    (ht0 : c0.rotatingTo = some h2) (ht1 : c1.rotatingTo = some h0)
    (ht2 : c2.rotatingTo = some h1)
    (hp0 : c0.rotationProgress = 0) (hp1 : c1.rotationProgress = 0)
    (hp2 : c2.rotationProgress = 0)
    (hdt : 0 < dt) :
    (∀ j : ℕ, j < (Int.ceil ((1 / 4 : ℚ) / dt)).toNat →
      ∃ gj, g.stepRotationMany (List.replicate j dt) = some gj ∧
        gj.rotation = some (h0, h1, h2)) ∧
    (∃ gk, g.stepRotationMany
        (List.replicate (Int.ceil ((1 / 4 : ℚ) / dt)).toNat dt) = some gk ∧
      gk.rotation = none) ∧
    (∀ (g' : HexMap) (d : ℚ), g'.rotation = none → g'.stepRotation d = some g') := by
  have hrepl : ∀ (m : ℕ), ((List.replicate m dt).sum : ℚ) = (m : ℚ) * dt := by
    intro m
    rw [List.sum_replicate, nsmul_eq_mul]
  refine ⟨?_, ?_, fun g' d h => stepRotation_idle d h⟩
  · intro j hj
    have hj1 : (j : ℤ) < Int.ceil ((1 / 4 : ℚ) / dt) := Int.lt_toNat.mp hj
    have hj2 : (j : ℚ) < (1 / 4 : ℚ) / dt := by exact_mod_cast Int.lt_ceil.mp hj1
    have h3 : (j : ℚ) * dt < 1 / 4 := (lt_div_iff₀ hdt).mp hj2
    obtain ⟨gj, hmany, _, _, _, hrotating⟩ :=
      rotation_run_aux (List.replicate j dt) g h0 h1 h2 c0 c1 c2 0
        (fun d hdm => by rw [List.eq_of_mem_replicate hdm]; exact le_of_lt hdt)
        hrot h01 h02 h12 hc0 hc1 hc2 ht0 ht1 ht2 hp0 hp1 hp2 (le_refl 0)
        (by norm_num)
    obtain ⟨hr, _, _, _⟩ := hrotating (by rw [hrepl]; linarith)
    exact ⟨gj, hmany, hr⟩
  · have h0k : (0 : ℚ) < (1 / 4 : ℚ) / dt := by positivity
    have hnn : (0 : ℤ) ≤ Int.ceil ((1 / 4 : ℚ) / dt) :=
      le_of_lt (Int.ceil_pos.mpr h0k)
    have hcast : (((Int.ceil ((1 / 4 : ℚ) / dt)).toNat : ℤ) : ℚ) =
        ((Int.ceil ((1 / 4 : ℚ) / dt) : ℤ) : ℚ) := by
      rw [Int.toNat_of_nonneg hnn]
    have hk : (1 / 4 : ℚ) / dt ≤ ((Int.ceil ((1 / 4 : ℚ) / dt)).toNat : ℚ) := by
      push_cast at hcast
      rw [hcast]
      exact Int.le_ceil _
    have hk' : (1 / 4 : ℚ) ≤ ((Int.ceil ((1 / 4 : ℚ) / dt)).toNat : ℚ) * dt :=
      (div_le_iff₀ hdt).mp hk
    obtain ⟨gk, hmany, _, _, hcommit, _⟩ :=
      rotation_run_aux (List.replicate (Int.ceil ((1 / 4 : ℚ) / dt)).toNat dt)
        g h0 h1 h2 c0 c1 c2 0
        (fun d hdm => by rw [List.eq_of_mem_replicate hdm]; exact le_of_lt hdt)
        hrot h01 h02 h12 hc0 hc1 hc2 ht0 ht1 ht2 hp0 hp1 hp2 (le_refl 0)
        (by norm_num)
    obtain ⟨hr, _, _, _⟩ := hcommit (by rw [hrepl]; linarith)
    exact ⟨gk, hmany, hr⟩

theorem stepRotation_commit_count_witness :
    (∀ j : ℕ, j < (Int.ceil ((1 / 4 : ℚ) / (1 / 10))).toNat →
      ∃ gj, (HexMap.mk [(⟨0, 0, 0⟩, ⟨some ⟨0, 1, -1⟩, 0, 1⟩),
        (⟨1, 0, -1⟩, ⟨some ⟨0, 0, 0⟩, 0, 2⟩), (⟨0, 1, -1⟩, ⟨some ⟨1, 0, -1⟩, 0, 3⟩)]
        (some (⟨0, 0, 0⟩, ⟨1, 0, -1⟩, ⟨0, 1, -1⟩))).stepRotationMany
          (List.replicate j (1 / 10)) = some gj ∧
        gj.rotation = some (⟨0, 0, 0⟩, ⟨1, 0, -1⟩, ⟨0, 1, -1⟩)) ∧
    (∃ gk, (HexMap.mk [(⟨0, 0, 0⟩, ⟨some ⟨0, 1, -1⟩, 0, 1⟩),
        (⟨1, 0, -1⟩, ⟨some ⟨0, 0, 0⟩, 0, 2⟩), (⟨0, 1, -1⟩, ⟨some ⟨1, 0, -1⟩, 0, 3⟩)]
        (some (⟨0, 0, 0⟩, ⟨1, 0, -1⟩, ⟨0, 1, -1⟩))).stepRotationMany
          (List.replicate (Int.ceil ((1 / 4 : ℚ) / (1 / 10))).toNat (1 / 10)) =
          some gk ∧
      gk.rotation = none) ∧
    (∀ (g' : HexMap) (d : ℚ), g'.rotation = none → g'.stepRotation d = some g') :=
  stepRotation_commit_count _ (1 / 10) _ _ _ ⟨some ⟨0, 1, -1⟩, 0, 1⟩
    ⟨some ⟨0, 0, 0⟩, 0, 2⟩ ⟨some ⟨1, 0, -1⟩, 0, 3⟩ rfl (by decide) (by decide)
    (by decide) rfl rfl rfl rfl rfl rfl rfl rfl rfl (by norm_num)

theorem mem_foldl_insert (l : List Hex) (v : Hex → Cell) (g : HexMap)
    {p : Hex × Cell}
    (hp : p ∈ (l.foldl (fun m h => m.insert h (v h)) g).cells) :
    p ∈ g.cells ∨ ∃ h ∈ l, p = (h, v h) := by
  induction l generalizing g with
  | nil => exact Or.inl hp
  | cons a l ih =>
    rcases ih _ hp with hmem | ⟨h, hh, he⟩
    · rcases mem_insert hmem with h' | h'
      · exact Or.inl h'
      · exact Or.inr ⟨a, List.mem_cons_self a l, h'⟩
    · exact Or.inr ⟨h, List.mem_cons_of_mem a hh, he⟩

theorem foldl_insert_rotation (l : List Hex) (v : Hex → Cell) (g : HexMap) :
    (l.foldl (fun m h => m.insert h (v h)) g).rotation = g.rotation := by
  induction l generalizing g with
  | nil => rfl
  | cons a l ih => rw [List.foldl_cons, ih, insert_rotation]

theorem generateHexMap_rotation (size : Int) (colorOf : Int → Int → Nat) :
    (generateHexMap size colorOf).rotation = none := by
  unfold generateHexMap
  rw [foldl_insert_rotation]

theorem rotationInvariant_of_reach {g : HexMap} (hg : Reach g) : RotationInvariant g := by
  induction hg with
  | generated size colorOf =>
    constructor
    · intro _ p hp
      unfold generateHexMap at hp
      rcases mem_foldl_insert _ _ _ hp with hmem | ⟨h, _, he⟩
      · cases hmem
      · rw [he]
    · intro h0 h1 h2 habs
      rw [generateHexMap_rotation] at habs
      cases habs
  | insert g h prog col _ ih =>
    obtain ⟨hidle, hrotating⟩ := ih
    constructor
    · intro hr p hp
      rw [insert_rotation] at hr
      rcases mem_insert hp with hmem | he
      · exact hidle hr p hmem
      · rw [he]
    · intro h0 h1 h2 hr
      rw [insert_rotation] at hr
      obtain ⟨d01, d02, d12, ⟨c0, hc0, ht0⟩, ⟨c1, hc1, ht1⟩, ⟨c2, hc2, ht2⟩, hothers⟩ :=
        hrotating h0 h1 h2 hr
      refine ⟨d01, d02, d12,
        ⟨c0, by rw [getCell_insert_of_isSome _ _ _ _ (by rw [hc0]; rfl)]; exact hc0, ht0⟩,
        ⟨c1, by rw [getCell_insert_of_isSome _ _ _ _ (by rw [hc1]; rfl)]; exact hc1, ht1⟩,
        ⟨c2, by rw [getCell_insert_of_isSome _ _ _ _ (by rw [hc2]; rfl)]; exact hc2, ht2⟩,
        ?_⟩
      intro p hp hp0 hp1 hp2
      rcases mem_insert hp with hmem | he
      · exact hothers p hmem hp0 hp1 hp2
      · rw [he]
  | start g g' h0 h1 h2 _ hidleg d01 d02 d12 hs0 hs1 hs2 heq ih =>
    obtain ⟨hidle, _⟩ := ih
    rw [Option.isSome_iff_exists] at hs0 hs1 hs2
    obtain ⟨c0, hc0⟩ := hs0
    obtain ⟨c1, hc1⟩ := hs1
    obtain ⟨c2, hc2⟩ := hs2
    obtain ⟨g'', heq', hrot', ha, hb, hc, _, _, hmemf⟩ :=
      startRotation_aux g h0 h1 h2 c0 c1 c2 d01 d02 d12 hc0 hc1 hc2
    rw [heq] at heq'
    cases heq'
    constructor
    · intro habs
      rw [hrot'] at habs
      cases habs
    · intro a b c habc
      rw [hrot'] at habc
      simp only [Option.some.injEq, Prod.mk.injEq] at habc
      obtain ⟨rfl, rfl, rfl⟩ := habc
      exact ⟨d01, d02, d12,
        ⟨⟨some h2, 0, c0.color⟩, ha, rfl⟩,
        ⟨⟨some h0, 0, c1.color⟩, hb, rfl⟩,
        ⟨⟨some h1, 0, c2.color⟩, hc, rfl⟩,
        fun p hp hp0 hp1 hp2 =>
          hidle hidleg p (hmemf p hp hp0 hp1 hp2)⟩
  | step g g' dt _ hdt hstep ih =>
    obtain ⟨hidle, hrotating⟩ := ih
    rcases hr : g.rotation with _ | ⟨⟨a, b, c⟩⟩
    · rw [stepRotation_idle dt hr] at hstep
      cases hstep
      exact ⟨hidle, hrotating⟩
    · obtain ⟨d01, d02, d12, ⟨c0, hc0, ht0⟩, ⟨c1, hc1, ht1⟩, ⟨c2, hc2, ht2⟩, hothers⟩ :=
        hrotating a b c hr
      by_cases hdc : 1 ≤ clampStep c0.rotationProgress dt ∧
          1 ≤ clampStep c1.rotationProgress dt ∧ 1 ≤ clampStep c2.rotationProgress dt
      · obtain ⟨g'', heq', hrot', _, _, _, _, _, hmem⟩ :=
          stepRotation_commit_aux g dt a b c c0 c1 c2 hr d01 d02 d12 hc0 hc1 hc2
            ht0 ht1 ht2 hdc
        rw [hstep] at heq'
        cases heq'
        constructor
        · intro _ p hp
          rcases hmem p hp with hnone | ⟨hpg, hp0, hp1, hp2⟩
          · exact hnone
          · exact hothers p hpg hp0 hp1 hp2
        · intro a' b' c' habs
          rw [hrot'] at habs
          cases habs
      · obtain ⟨g'', heq', hrot', ha', hb', hc', _, _, hmem⟩ :=
          stepRotation_advance_aux g dt a b c c0 c1 c2 hr d01 d02 d12 hc0 hc1 hc2
            ht0 ht1 ht2 hdc
        rw [hstep] at heq'
        cases heq'
        constructor
        · intro habs
          rw [hrot'] at habs
          cases habs
        · intro a' b' c' habc
          rw [hrot'] at habc
          simp only [Option.some.injEq, Prod.mk.injEq] at habc
          obtain ⟨rfl, rfl, rfl⟩ := habc
          exact ⟨d01, d02, d12,
            ⟨_, ha', rfl⟩, ⟨_, hb', rfl⟩, ⟨_, hc', rfl⟩,
            fun p hp hp0 hp1 hp2 =>
              hothers p (hmem p hp hp0 hp1 hp2) hp0 hp1 hp2⟩

/-- C4: in every grid state reachable by `insert`, precondition-respecting
`startRotation`, and `stepRotation` from a freshly generated grid, the
rotation descriptor is present iff a referenced cell is mid-rotation — when
present, all three referenced coordinates are keys of the mapping and the
referenced cells are rotating; when absent, no cell anywhere is rotating —
and the single optional descriptor admits at most one active rotation. -/
theorem reachable_rotation_invariant (g : HexMap) (hg : Reach g) :
    (∀ h0 h1 h2, g.rotation = some (h0, h1, h2) →
      ((g.getCell h0).isSome ∧ (g.getCell h1).isSome ∧ (g.getCell h2).isSome) ∧
      (∃ c, g.getCell h1 = some c ∧ c.rotatingTo.isSome)) ∧
    (g.rotation = none → ∀ p ∈ g.cells, p.2.rotatingTo = none) ∧
    (∀ r r' : Hex × Hex × Hex, g.rotation = some r → g.rotation = some r' → r = r') := by
  obtain ⟨hidle, hrotating⟩ := rotationInvariant_of_reach hg
  refine ⟨?_, hidle, ?_⟩
  · intro h0 h1 h2 hr
    obtain ⟨_, _, _, ⟨c0, hc0, _⟩, ⟨c1, hc1, ht1⟩, ⟨c2, hc2, _⟩, _⟩ :=
      hrotating h0 h1 h2 hr
    exact ⟨⟨by rw [hc0]; rfl, by rw [hc1]; rfl, by rw [hc2]; rfl⟩,
      ⟨c1, hc1, by rw [ht1]; rfl⟩⟩
  · intro r r' h h'
    rw [h] at h'
    exact Option.some.inj h'

theorem reachable_rotation_invariant_witness :
    (∀ h0 h1 h2, (generateHexMap 1 (fun _ _ => 0)).rotation = some (h0, h1, h2) →
      (((generateHexMap 1 (fun _ _ => 0)).getCell h0).isSome ∧
       ((generateHexMap 1 (fun _ _ => 0)).getCell h1).isSome ∧
       ((generateHexMap 1 (fun _ _ => 0)).getCell h2).isSome) ∧
      (∃ c, (generateHexMap 1 (fun _ _ => 0)).getCell h1 = some c ∧
        c.rotatingTo.isSome)) ∧
    ((generateHexMap 1 (fun _ _ => 0)).rotation = none →
      ∀ p ∈ (generateHexMap 1 (fun _ _ => 0)).cells, p.2.rotatingTo = none) ∧
    (∀ r r' : Hex × Hex × Hex, (generateHexMap 1 (fun _ _ => 0)).rotation = some r →
      (generateHexMap 1 (fun _ _ => 0)).rotation = some r' → r = r') :=
  reachable_rotation_invariant _ (Reach.generated 1 (fun _ _ => 0))

theorem tmod_two_eq_zero_iff_even (r : ℤ) : r.tmod 2 = 0 ↔ Even r := by
  rw [← Int.dvd_iff_tmod_eq_zero]
  exact even_iff_two_dvd.symm

theorem tmod_two_beq_true {r : ℤ} (h : Even r) : (r.tmod 2 == 0) = true := by
  rw [beq_iff_eq, tmod_two_eq_zero_iff_even]
  exact h

theorem tmod_two_beq_false {r : ℤ} (h : ¬Even r) : (r.tmod 2 == 0) = false := by
  rw [beq_eq_false_iff_ne]
  intro hz
  exact h ((tmod_two_eq_zero_iff_even r).mp hz)

/-- C6: `moveUp` translates all three cursor coordinates by the SouthEast
unit vector `(1,-1,0)` when the top coordinate's `r` is even and by the
SouthWest unit vector `(0,-1,1)` when it is odd; `moveDown` translates by
NorthEast `(0,1,-1)` when even and NorthWest `(-1,1,0)` when odd. -/
theorem cursor_vertical_parity (c : Cursor)
    (hsum : c.hex0.q + c.hex0.r + c.hex0.s = 0) :
    (Even c.hex0.r →
      c.moveUp = ⟨hexAdd c.hex0 ⟨1, -1, 0⟩, hexAdd c.hex1 ⟨1, -1, 0⟩,
        hexAdd c.hex2 ⟨1, -1, 0⟩⟩ ∧
      c.moveDown = ⟨hexAdd c.hex0 ⟨0, 1, -1⟩, hexAdd c.hex1 ⟨0, 1, -1⟩,
        hexAdd c.hex2 ⟨0, 1, -1⟩⟩) ∧
    (¬Even c.hex0.r →
      c.moveUp = ⟨hexAdd c.hex0 ⟨0, -1, 1⟩, hexAdd c.hex1 ⟨0, -1, 1⟩,
        hexAdd c.hex2 ⟨0, -1, 1⟩⟩ ∧
      c.moveDown = ⟨hexAdd c.hex0 ⟨-1, 1, 0⟩, hexAdd c.hex1 ⟨-1, 1, 0⟩,
        hexAdd c.hex2 ⟨-1, 1, 0⟩⟩) := by
  constructor
  · intro he
    have hb := tmod_two_beq_true he
    constructor
    · rw [Cursor.moveUp, if_pos hb]
      rfl
    · rw [Cursor.moveDown, if_pos hb]
      rfl
  · intro ho
    have hb := tmod_two_beq_false ho
    have hb' : ¬((c.hex0.r.tmod 2 == 0) = true) := by rw [hb]; exact Bool.false_ne_true
    constructor
    · rw [Cursor.moveUp, if_neg hb']
      rfl
    · rw [Cursor.moveDown, if_neg hb']
      rfl

theorem cursor_vertical_parity_witness :
    (Even (Cursor.ofTop ⟨2, 2, -4⟩).hex0.r →
      (Cursor.ofTop ⟨2, 2, -4⟩).moveUp =
        ⟨hexAdd (Cursor.ofTop ⟨2, 2, -4⟩).hex0 ⟨1, -1, 0⟩,
         hexAdd (Cursor.ofTop ⟨2, 2, -4⟩).hex1 ⟨1, -1, 0⟩,
         hexAdd (Cursor.ofTop ⟨2, 2, -4⟩).hex2 ⟨1, -1, 0⟩⟩ ∧
      (Cursor.ofTop ⟨2, 2, -4⟩).moveDown =
        ⟨hexAdd (Cursor.ofTop ⟨2, 2, -4⟩).hex0 ⟨0, 1, -1⟩,
         hexAdd (Cursor.ofTop ⟨2, 2, -4⟩).hex1 ⟨0, 1, -1⟩,
         hexAdd (Cursor.ofTop ⟨2, 2, -4⟩).hex2 ⟨0, 1, -1⟩⟩) ∧
    (¬Even (Cursor.ofTop ⟨2, 2, -4⟩).hex0.r →
      (Cursor.ofTop ⟨2, 2, -4⟩).moveUp =
        ⟨hexAdd (Cursor.ofTop ⟨2, 2, -4⟩).hex0 ⟨0, -1, 1⟩,
         hexAdd (Cursor.ofTop ⟨2, 2, -4⟩).hex1 ⟨0, -1, 1⟩,
         hexAdd (Cursor.ofTop ⟨2, 2, -4⟩).hex2 ⟨0, -1, 1⟩⟩ ∧
      (Cursor.ofTop ⟨2, 2, -4⟩).moveDown =
        ⟨hexAdd (Cursor.ofTop ⟨2, 2, -4⟩).hex0 ⟨-1, 1, 0⟩,
         hexAdd (Cursor.ofTop ⟨2, 2, -4⟩).hex1 ⟨-1, 1, 0⟩,
         hexAdd (Cursor.ofTop ⟨2, 2, -4⟩).hex2 ⟨-1, 1, 0⟩⟩) :=
  cursor_vertical_parity (Cursor.ofTop ⟨2, 2, -4⟩) (by decide)

/-- C7: from any cursor whose top coordinate satisfies `q + r + s = 0`,
`moveUp` then `moveDown` (and `moveDown` then `moveUp`) returns the cursor to
exactly its original three coordinates. -/
theorem cursor_up_down_inverse (c : Cursor)
    (hsum : c.hex0.q + c.hex0.r + c.hex0.s = 0) :
    c.moveUp.moveDown = c ∧ c.moveDown.moveUp = c := by
  obtain ⟨⟨q0, r0, s0⟩, ⟨q1, r1, s1⟩, ⟨q2, r2, s2⟩⟩ := c
  by_cases he : Even r0
  · have hbt : ((r0 : ℤ).tmod 2 == 0) = true := tmod_two_beq_true he
    have hup : (((r0 : ℤ) + -1).tmod 2 == 0) = false := by
      apply tmod_two_beq_false
      rw [Int.even_iff] at he ⊢
      omega
    have hdn : (((r0 : ℤ) + 1).tmod 2 == 0) = false := by
      apply tmod_two_beq_false
      rw [Int.even_iff] at he ⊢
      omega
    constructor
    · simp only [Cursor.moveUp, Cursor.moveDown, Cursor.move, hexNeighbour, hexAdd,
        hexDirection, hbt, hup, if_true, Bool.false_eq_true, if_false,
        Cursor.mk.injEq, Hex.mk.injEq]
      omega
    · simp only [Cursor.moveUp, Cursor.moveDown, Cursor.move, hexNeighbour, hexAdd,
        hexDirection, hbt, hdn, if_true, Bool.false_eq_true, if_false,
        Cursor.mk.injEq, Hex.mk.injEq]
      omega
  · have hbf : ((r0 : ℤ).tmod 2 == 0) = false := tmod_two_beq_false he
    have hup : (((r0 : ℤ) + -1).tmod 2 == 0) = true := by
      apply tmod_two_beq_true
      rw [Int.even_iff] at he ⊢
      omega
    have hdn : (((r0 : ℤ) + 1).tmod 2 == 0) = true := by
      apply tmod_two_beq_true
      rw [Int.even_iff] at he ⊢
      omega
    constructor
    · simp only [Cursor.moveUp, Cursor.moveDown, Cursor.move, hexNeighbour, hexAdd,
        hexDirection, hbf, hup, if_true, Bool.false_eq_true, if_false,
        Cursor.mk.injEq, Hex.mk.injEq]
      omega
    · simp only [Cursor.moveUp, Cursor.moveDown, Cursor.move, hexNeighbour, hexAdd,
        hexDirection, hbf, hdn, if_true, Bool.false_eq_true, if_false,
        Cursor.mk.injEq, Hex.mk.injEq]
      omega

theorem cursor_up_down_inverse_witness :
    (Cursor.ofTop ⟨2, 2, -4⟩).moveUp.moveDown = Cursor.ofTop ⟨2, 2, -4⟩ ∧
    (Cursor.ofTop ⟨2, 2, -4⟩).moveDown.moveUp = Cursor.ofTop ⟨2, 2, -4⟩ :=
  cursor_up_down_inverse (Cursor.ofTop ⟨2, 2, -4⟩) (by decide)

theorem intRange_length (lo hi : Int) :
    (intRange lo hi).length = (hi + 1 - lo).toNat := by
  unfold intRange
  rw [List.length_map, List.length_range]

theorem sum_list_range_eq (f : ℕ → ℕ) (m : ℕ) :
    ((List.range m).map f).sum = ∑ i ∈ Finset.range m, f i := by
  induction m with
  | zero => rfl
  | succ k ih =>
    rw [List.range_succ, List.map_append, List.sum_append, Finset.sum_range_succ, ih]
    simp

theorem sum_range_min_split (m k : ℕ) :
    ∑ i ∈ Finset.range (m + 1 + k), min m i = (∑ i ∈ Finset.range (m + 1), i) + k * m := by
  induction k with
  | zero =>
    rw [Nat.add_zero, Nat.zero_mul, Nat.add_zero]
    apply Finset.sum_congr rfl
    intro i hi
    rw [Finset.mem_range] at hi
    omega
  | succ k ih =>
    have h1 : m + 1 + (k + 1) = (m + 1 + k) + 1 := by omega
    rw [h1, Finset.sum_range_succ, ih]
    have h2 : min m (m + 1 + k) = m := by omega
    rw [h2]
    ring

theorem sum_hex_row_lengths (n : ℕ) :
    ∑ i ∈ Finset.range (2 * n + 1), (min n (2 * n - i) + min n i + 1) =
      3 * n ^ 2 + 3 * n + 1 := by
  rw [Finset.sum_add_distrib, Finset.sum_add_distrib, Finset.sum_const, Finset.card_range]
  have hrefl : ∑ i ∈ Finset.range (2 * n + 1), min n (2 * n - i) =
      ∑ i ∈ Finset.range (2 * n + 1), min n i := by
    have h := Finset.sum_range_reflect (fun i => min n i) (2 * n + 1)
    simpa using h
  rw [hrefl]
  have hsplit : ∑ i ∈ Finset.range (2 * n + 1), min n i =
      (∑ i ∈ Finset.range (n + 1), i) + n * n := by
    have h : 2 * n + 1 = n + 1 + n := by omega
    rw [h, sum_range_min_split]
  rw [hsplit]
  have hgauss : (∑ i ∈ Finset.range (n + 1), i) * 2 = n * n + n := by
    rw [Finset.sum_range_id_mul_two (n + 1), Nat.add_sub_cancel]
    ring
  rw [pow_two]
  simp only [smul_eq_mul]
  linarith

theorem hexMapKeyList_length (n : ℕ) :
    (hexMapKeyList (n : ℤ)).length = 3 * n ^ 2 + 3 * n + 1 := by
  unfold hexMapKeyList
  rw [List.length_flatMap]
  have houter : intRange (-(n : ℤ)) n = (List.range (2 * n + 1)).map
      fun i : ℕ => -(n : ℤ) + (i : ℤ) := by
    unfold intRange
    rw [show ((n : ℤ) + 1 - -(n : ℤ)).toNat = 2 * n + 1 from by omega]
  rw [houter, List.map_map, sum_list_range_eq]
  have hpt : ∀ i ∈ Finset.range (2 * n + 1),
      ((List.length ∘ fun q => (intRange (max (-(n : ℤ)) (-q - n))
        (min (n : ℤ) (-q + n))).map fun r => (⟨q, r, -q - r⟩ : Hex)) ∘
        fun i : ℕ => -(n : ℤ) + i) i = min n (2 * n - i) + min n i + 1 := by
    intro i hi
    rw [Finset.mem_range] at hi
    simp only [Function.comp_apply, List.length_map, intRange_length]
    omega
  rw [Finset.sum_congr rfl hpt, sum_hex_row_lengths]

theorem intRange_pairwise_ne (lo hi : Int) : (intRange lo hi).Pairwise Ne := by
  unfold intRange
  rw [List.pairwise_map]
  refine List.Pairwise.imp ?_ (List.nodup_range _)
  intro a b hab
  omega

theorem pairwise_hexEq_flatMap (l : List Int) (f : Int → List Hex)
    (hq : ∀ q, ∀ x ∈ f q, x.q = q)
    (hinner : ∀ q, (f q).Pairwise fun a b => hexEq a b = false)
    (hnd : l.Pairwise Ne) :
    (l.flatMap f).Pairwise fun a b => hexEq a b = false := by
  induction l with
  | nil => exact List.Pairwise.nil
  | cons a l ih =>
    rw [List.flatMap_cons, List.pairwise_append]
    rw [List.pairwise_cons] at hnd
    refine ⟨hinner a, ih hnd.2, ?_⟩
    intro x hx y hy
    obtain ⟨b, hb, hyb⟩ := List.mem_flatMap.mp hy
    rw [hexEq_false_iff]
    intro hxy
    have hxa : x.q = a := hq a x hx
    have hyq : y.q = b := hq b y hyb
    exact (hnd.1 b hb) (by rw [← hxa, hxy.1, hyq])

theorem hexMapKeyList_pairwise (size : Int) :
    (hexMapKeyList size).Pairwise fun a b => hexEq a b = false := by
  unfold hexMapKeyList
  apply pairwise_hexEq_flatMap
  · intro q x hx
    rw [List.mem_map] at hx
    obtain ⟨r, _, hr⟩ := hx
    rw [← hr]
  · intro q
    rw [List.pairwise_map]
    refine List.Pairwise.imp ?_ (intRange_pairwise_ne _ _)
    intro r r' hrr
    rw [hexEq_false_iff]
    intro h
    exact hrr h.2
  · exact intRange_pairwise_ne _ _

theorem containsHex_append_single (g : HexMap) (a h : Hex) (c : Cell) :
    (HexMap.mk (g.cells ++ [(a, c)]) g.rotation).containsHex h =
      (g.containsHex h || hexEq a h) := by
  simp [HexMap.containsHex, List.any_append]

theorem foldl_insert_keys (l : List Hex) (v : Hex → Cell) :
    ∀ g : HexMap, (∀ h ∈ l, g.containsHex h = false) →
    (l.Pairwise fun a b => hexEq a b = false) →
    (l.foldl (fun m h => m.insert h (v h)) g).cells.map Prod.fst =
      g.cells.map Prod.fst ++ l := by
  induction l with
  | nil =>
    intro g _ _
    simp
  | cons a l ih =>
    intro g hnew hpw
    rw [List.pairwise_cons] at hpw
    have hca : g.containsHex a = false := hnew a (List.mem_cons_self a l)
    have hins : g.insert a (v a) = HexMap.mk (g.cells ++ [(a, v a)]) g.rotation := by
      rw [HexMap.insert, hca, if_neg Bool.false_ne_true]
    rw [List.foldl_cons, hins, ih _ ?_ hpw.2]
    · simp
    · intro h hh
      rw [containsHex_append_single, hnew h (List.mem_cons_of_mem a hh), hpw.1 h hh]
      rfl

/-- C8: for every size `n ≥ 0`, the grid built by `generateHexMap n` holds
exactly `3n² + 3n + 1` cells, one per coordinate key, with all keys pairwise
distinct under the map's key equality (in particular `n = 2` yields `19`). -/
theorem generateHexMap_cell_count (n : ℕ) (colorOf : Int → Int → Nat) :
    (generateHexMap (n : ℤ) colorOf).cells.length = 3 * n ^ 2 + 3 * n + 1 ∧
    ((generateHexMap (n : ℤ) colorOf).cells.map Prod.fst).Pairwise
      (fun a b => hexEq a b = false) := by
  have hkeys : (generateHexMap (n : ℤ) colorOf).cells.map Prod.fst =
      hexMapKeyList (n : ℤ) := by
    unfold generateHexMap
    rw [foldl_insert_keys (hexMapKeyList (n : ℤ)) _ ⟨[], none⟩ (fun h _ => rfl)
      (hexMapKeyList_pairwise _)]
    rfl
  constructor
  · have hlen : (generateHexMap (n : ℤ) colorOf).cells.length =
        ((generateHexMap (n : ℤ) colorOf).cells.map Prod.fst).length :=
      (List.length_map _ _).symm
    rw [hlen, hkeys, hexMapKeyList_length]
  · rw [hkeys]
    exact hexMapKeyList_pairwise _

/-- C9: `rotatePoint(p, p, pivot, t) = p` exactly, for every pivot and every
progress value (degenerate rotation where start and end coincide). -/
theorem rotatePoint_degenerate_identity (p pivot : Vec2) (t : ℝ) :
    rotatePoint p p pivot t = p := by
  obtain ⟨px, py⟩ := p
  obtain ⟨vx, vy⟩ := pivot
  unfold rotatePoint vec2Sub vec2Length atan2
  simp only [sub_self]
  rw [if_neg (not_lt.mpr (le_of_lt Real.pi_pos)),
    if_neg (not_lt.mpr (le_of_lt (neg_neg_of_pos Real.pi_pos))), zero_mul, add_zero]
  by_cases hz : (⟨px - vx, py - vy⟩ : ℂ) = 0
  · have hx : px - vx = 0 := by
      have := congrArg Complex.re hz
      simpa using this
    have hy : py - vy = 0 := by
      have := congrArg Complex.im hz
      simpa using this
    rw [Vec2.mk.injEq]
    constructor
    · rw [hx, hy]
      simp only [mul_zero, zero_mul, add_zero, Real.sqrt_zero, mul_zero]
      linarith
    · rw [hx, hy]
      simp only [mul_zero, zero_mul, add_zero, Real.sqrt_zero, mul_zero]
      linarith
  · have habs : Complex.abs ⟨px - vx, py - vy⟩ =
        Real.sqrt ((px - vx) * (px - vx) + (py - vy) * (py - vy)) := by
      rw [Complex.abs_apply, Complex.normSq_apply]
    have habsne : Complex.abs ⟨px - vx, py - vy⟩ ≠ 0 := by
      rwa [ne_eq, map_eq_zero]
    have hcos : Real.cos (Complex.arg ⟨px - vx, py - vy⟩) =
        (px - vx) / Complex.abs ⟨px - vx, py - vy⟩ := Complex.cos_arg hz
    have hsin : Real.sin (Complex.arg ⟨px - vx, py - vy⟩) =
        (py - vy) / Complex.abs ⟨px - vx, py - vy⟩ := Complex.sin_arg _
    rw [Vec2.mk.injEq]
    constructor
    · rw [hcos, ← habs, div_mul_cancel₀ _ habsne]
      ring
    · rw [hsin, ← habs, div_mul_cancel₀ _ habsne]
      ring

end Heximeter
